import Mathlib

/-! Borcelle rewards: the reward servers and the storefront check.

A shallow embedding of `src/backend/server-improved.js` (the registry of
customers, the transaction log and the HTTP handlers that read and change
them), of `src/backend/quick-server.js` (its counter and its handlers), and of
the wallet field check of `src/integraciones/woocommerce-integration.php`.

The process-wide `customers` map and `transactions` array are an explicit
`State` passed through every handler. What the remote chain node answers to a
handler is an input of the handler (`Chain`), as are the clock readings. Every
handler returns the new state, the HTTP response and the list of chain calls it
issued, in order.

`REWARD_AMOUNT` is a text (`"5"` unless the environment overrides it). The
total of a customer is a JavaScript number, an IEEE 754 double: `parseFloat` and
`+` are modelled with their rounding. Counters and ids are natural numbers: they
never exceed the length of an array, below which `+ 1` is exact.
-/

namespace Rewards

/-! ## JavaScript values and strings -/

/-- A value found in a parsed JSON body (`undefined` for an absent field).
Arrays and objects are `composite`, kept as their JSON text. -/
inductive JsValue where
  | undefined
  | null
  | bool (b : Bool)
  | num (n : Int)
  | str (s : String)
  | composite (json : String)
  deriving DecidableEq, Repr

/-- Truthiness of a value, which decides `a || b`. -/
def JsValue.truthy : JsValue → Bool
  | .undefined => false
  | .null => false
  | .bool b => b
  | .num n => n != 0
  | .str s => s != ""
  | .composite _ => true

/-- The expression `a || b`. -/
def jsOr (a b : JsValue) : JsValue :=
  if a.truthy then a else b

/-- The method `String.prototype.toLowerCase`, on the letters `A`..`Z`. -/
def toLowerCase (s : String) : String :=
  String.mk (s.data.map Char.toLower)

/-- Whether `sub` occurs in the list of characters, at any position. -/
def includesChars (sub : List Char) : List Char → Bool
  | [] => sub.isEmpty
  | c :: cs => sub.isPrefixOf (c :: cs) || includesChars sub cs

/-- The method `String.prototype.includes`. -/
def includes (s sub : String) : Bool :=
  includesChars sub.data s.data

/-- The call `xs.slice(start)` of an array: a negative `start` counts from the
end, and both directions are clamped to the array. -/
def jsSlice {α : Type} (xs : List α) (start : Int) : List α :=
  if start < 0 then xs.drop (xs.length - start.natAbs) else xs.drop start.toNat

/-! ## JavaScript numbers -/

/-- The number of binary digits of `n`, counting at most `fuel` of them. -/
def bitLengthAux : Nat → Nat → Nat
  | 0, _ => 0
  | fuel + 1, n => if n = 0 then 0 else bitLengthAux fuel (n / 2) + 1

/-- The number of binary digits of `n` (0 for 0). -/
def bitLength (n : Nat) : Nat :=
  bitLengthAux n n

/-- A JavaScript number, which is an IEEE 754 double. A finite one is
`mantissa * 2 ^ exponent` with its sign kept apart; the functions below produce
the one form with `mantissa < 2 ^ 53`, `-1074 ≤ exponent ≤ 971`, and
`2 ^ 52 ≤ mantissa` unless the exponent is `-1074`. -/
inductive Double where
  | nan
  | infinity (negative : Bool)
  | finite (negative : Bool) (mantissa : Nat) (exponent : Int)
  deriving DecidableEq, Repr

/-- The double of a rounded mantissa `n` at exponent `q`: a mantissa that
rounding carried to `2 ^ 53` moves up one exponent, and an exponent above 971
overflows to infinity. -/
def Double.pack (negative : Bool) (n : Nat) (q : Int) : Double :=
  if n = 0 then .finite negative 0 (-1074)
  else if n = 2 ^ 53 then
    (if q + 1 > 971 then .infinity negative else .finite negative (2 ^ 52) (q + 1))
  else if q > 971 then .infinity negative
  else .finite negative n q

/-- The double nearest to the fraction `p / q` (with `0 < q`), ties going to the
even mantissa, with the given sign. -/
def Double.ofRatio (negative : Bool) (p q : Nat) : Double :=
  if p = 0 then .finite negative 0 (-1074)
  else
    let d : Int := (bitLength p : Int) - (bitLength q : Int)
    let atLeast : Bool := if 0 ≤ d then q * 2 ^ d.toNat ≤ p else q ≤ p * 2 ^ (-d).toNat
    let e : Int := if atLeast then d else d - 1
    let quantum : Int := max (e - 52) (-1074)
    let numerator : Nat := if quantum < 0 then p * 2 ^ (-quantum).toNat else p
    let denominator : Nat := if quantum < 0 then q else q * 2 ^ quantum.toNat
    let n := numerator / denominator
    let r := numerator % denominator
    let up : Bool := denominator < 2 * r || (2 * r == denominator && n % 2 == 1)
    Double.pack negative (if up then n + 1 else n) quantum

/-- The double nearest to `m * 2 ^ e`, with the given sign. -/
def Double.ofDyadic (negative : Bool) (m : Nat) (e : Int) : Double :=
  if 0 ≤ e then Double.ofRatio negative (m * 2 ^ e.toNat) 1
  else Double.ofRatio negative m (2 ^ (-e).toNat)

/-- The double nearest to `digits * 10 ^ e`, with the given sign. -/
def Double.ofDecimal (negative : Bool) (digits : Nat) (e : Int) : Double :=
  if 0 ≤ e then Double.ofRatio negative (digits * 10 ^ e.toNat) 1
  else Double.ofRatio negative digits (10 ^ (-e).toNat)

/-- The operator `+` on numbers: the exact sum, rounded once. -/
def Double.add : Double → Double → Double
  | .nan, _ => .nan
  | _, .nan => .nan
  | .infinity a, .infinity b => if a = b then .infinity a else .nan
  | .infinity a, .finite _ _ _ => .infinity a
  | .finite _ _ _, .infinity b => .infinity b
  | .finite s1 m1 e1, .finite s2 m2 e2 =>
    if m1 = 0 ∧ m2 = 0 then .finite (s1 && s2) 0 (-1074)
    else if m1 = 0 then Double.ofDyadic s2 m2 e2
    else if m2 = 0 then Double.ofDyadic s1 m1 e1
    else
    let e := min e1 e2
    let a : Int := if s1 then -((m1 * 2 ^ (e1 - e).toNat : Nat) : Int)
      else ((m1 * 2 ^ (e1 - e).toNat : Nat) : Int)
    let b : Int := if s2 then -((m2 * 2 ^ (e2 - e).toNat : Nat) : Int)
      else ((m2 * 2 ^ (e2 - e).toNat : Nat) : Int)
    if a + b = 0 then .finite (s1 && s2) 0 (-1074)
    else Double.ofDyadic (decide (a + b < 0)) (a + b).natAbs e

instance : Add Double :=
  ⟨Double.add⟩

instance (n : Nat) : OfNat Double n :=
  ⟨Double.ofRatio false n 1⟩

/-- The value of a finite double as a fraction (0 for the others). -/
def Double.toRat : Double → ℚ
  | .finite negative m e => if negative then -((m : ℚ) * 2 ^ e) else (m : ℚ) * 2 ^ e
  | _ => 0

/-- One of the characters `0`..`9`. -/
def isDecimalDigit (c : Char) : Bool :=
  '0' ≤ c && c ≤ '9'

/-- A character that `parseFloat` skips at the start of a text: white space or
a line terminator. -/
def isStrWhiteSpaceChar (c : Char) : Bool :=
  [9, 10, 11, 12, 13, 32, 160, 5760, 8232, 8233, 8239, 8287, 12288, 65279].contains c.toNat ||
    (8192 ≤ c.toNat && c.toNat ≤ 8202)

/-- The number written by a list of decimal digits, most significant first. -/
def digitsValue (digits : List Char) : Nat :=
  digits.foldl (fun n c => 10 * n + (c.toNat - 48)) 0

/-- The exponent part at the start of `rest`, when there is one: `e` or `E`, an
optional sign and at least one digit. -/
def exponentPart (rest : List Char) : Int :=
  match rest with
  | c :: signed =>
    if c = 'e' ∨ c = 'E' then
      match signed with
      | '-' :: digits => -(digitsValue (digits.takeWhile isDecimalDigit) : Int)
      | '+' :: digits => (digitsValue (digits.takeWhile isDecimalDigit) : Int)
      | digits => (digitsValue (digits.takeWhile isDecimalDigit) : Int)
    else 0
  | [] => 0

/-- The function `parseFloat` on text: leading white space is skipped, the
longest start that is a decimal literal is read (a sign, then `Infinity` or
digits with an optional fraction and exponent), and the answer is `NaN` when
there is none. -/
def parseFloat (text : String) : Double :=
  let trimmed := text.data.dropWhile isStrWhiteSpaceChar
  let negative : Bool :=
    match trimmed with
    | '-' :: _ => true
    | _ => false
  let unsigned : List Char :=
    match trimmed with
    | '-' :: rest => rest
    | '+' :: rest => rest
    | rest => rest
  if "Infinity".data.isPrefixOf unsigned then .infinity negative
  else
    let whole := unsigned.takeWhile isDecimalDigit
    let afterWhole := unsigned.dropWhile isDecimalDigit
    let fraction : List Char :=
      match afterWhole with
      | '.' :: rest => rest.takeWhile isDecimalDigit
      | _ => []
    let afterFraction : List Char :=
      match afterWhole with
      | '.' :: rest => rest.dropWhile isDecimalDigit
      | rest => rest
    if whole.isEmpty && fraction.isEmpty then .nan
    else
      Double.ofDecimal negative (digitsValue (whole ++ fraction))
        (exponentPart afterFraction - fraction.length)

/-! ## The in-memory database -/

/-- A value of the `customers` map. `lastPurchase` is absent until the first
reward. -/
structure Customer where
  name : JsValue
  email : JsValue
  purchaseCount : Nat
  totalRewards : Double
  registeredAt : String
  lastPurchase : Option String
  deriving DecidableEq, Repr

/-- An element of the `transactions` array. -/
structure Transaction where
  id : Nat
  recipient : String
  amount : String
  symbol : String
  txHash : String
  blockNumber : Nat
  gasUsed : String
  purchaseId : JsValue
  purchaseAmount : JsValue
  timestamp : String
  deriving DecidableEq, Repr

/-- The method `Map.prototype.has`. The map is the list of its entries in
insertion order. -/
def mapHas (m : List (String × Customer)) (key : String) : Bool :=
  m.any (fun e => e.1 == key)

/-- The method `Map.prototype.get`. -/
def mapGet (m : List (String × Customer)) (key : String) : Option Customer :=
  match m with
  | [] => none
  | e :: rest => if e.1 == key then some e.2 else mapGet rest key

/-- The method `Map.prototype.set`: an existing key keeps its place and takes
the new value, a new key goes to the end. -/
def mapSet (m : List (String × Customer)) (key : String) (value : Customer) :
    List (String × Customer) :=
  match m with
  | [] => [(key, value)]
  | e :: rest => if e.1 == key then (key, value) :: rest else e :: mapSet rest key value

/-- In-place change of the object stored under `key`, as done through the
reference returned by `customers.get(key)`. -/
def mapModify (m : List (String × Customer)) (key : String) (f : Customer → Customer) :
    List (String × Customer) :=
  match m with
  | [] => []
  | e :: rest => if e.1 == key then (e.1, f e.2) :: rest else e :: mapModify rest key f

/-- The two process-wide stores of `server-improved.js`. -/
structure State where
  customers : List (String × Customer)
  transactions : List Transaction
  deriving DecidableEq, Repr

/-- The state at process start: `new Map()` and `[]`. -/
def State.init : State :=
  ⟨[], []⟩

/-! ## Configuration, chain and responses -/

/-- What the handlers take from outside the file: the verdict of
`ethers.isAddress` on a string (it is a type guard, so it answers `false` on
anything that is not a string), the environment variable `REWARD_AMOUNT` when
it is set, and the address of the business wallet. -/
structure Env where
  isAddress : String → Bool
  rewardAmountVariable : Option String
  businessWallet : String

/-- The constant `REWARD_AMOUNT`: `process.env.REWARD_AMOUNT || "5"`. -/
def Env.REWARD_AMOUNT (env : Env) : String :=
  match env.rewardAmountVariable with
  | some text => if text = "" then "5" else text
  | none => "5"

/-- The receipt of a confirmed transfer, with `gasUsed` already as text. -/
structure Receipt where
  blockNumber : Nat
  gasUsed : String
  deriving DecidableEq, Repr

/-- What the chain, and the library in front of it, answer to each call of one
send-reward request, were the call made: a value, or the `message` of the error
thrown. `parseUnits` is `ethers.parseUnits(REWARD_AMOUNT, decimals)` as a
function of `decimals`. -/
structure Chain where
  decimals : Except String Nat
  symbol : Except String String
  parseUnits : Nat → Except String Int
  transfer : Except String String
  wait : Except String Receipt

/-- The balances read by `/api/business-balance`, already formatted. -/
structure Balances where
  ary : String
  symbol : String
  eth : String
  deriving DecidableEq, Repr

/-- A call made to the chain node. -/
inductive ChainCall where
  | decimals
  | symbol
  | transfer (recipient : String) (amount : Int)
  | wait (txHash : String)
  | balanceOf (owner : String)
  | getBalance (owner : String)
  deriving DecidableEq, Repr

/-- The `reward` object of a successful send-reward response. -/
structure Reward where
  amount : String
  recipient : String
  txHash : String
  explorerUrl : String
  deriving DecidableEq, Repr

/-- The `customerStats` object of a successful send-reward response. The text
`totalRewards` is kept as the number and the symbol it is printed from. -/
structure CustomerStats where
  totalPurchases : Nat
  totalRewards : Double × String
  deriving DecidableEq, Repr

/-- The JSON body of a response. -/
inductive Body where
  | error (error : String)
  | registered (message : String) (walletAddress : String)
  | rewardSent (message : String) (reward : Reward) (transaction : Transaction)
      (customerStats : CustomerStats)
  | businessBalance (businessWallet : String) (ary eth : String)
      (totalCustomers totalTransactions : Nat)
  | customer (walletAddress : String) (customer : Customer)
      (transactions : List Transaction)
  | transactions (total : Nat) (transactions : List Transaction)
  | health (timestamp : String) (wallet : String)
  deriving DecidableEq, Repr

/-- An HTTP response: status code and JSON body. -/
structure Response where
  status : Nat
  body : Body
  deriving DecidableEq, Repr

/-- What a handler leaves behind: the state, the response, and the chain calls
it made, in order. -/
structure Outcome where
  state : State
  response : Response
  calls : List ChainCall

/-- The body of `POST /api/register-wallet`. -/
structure RegisterBody where
  walletAddress : JsValue
  name : JsValue
  email : JsValue

/-- The body of `POST /api/send-reward`. -/
structure RewardBody where
  walletAddress : JsValue
  purchaseId : JsValue
  purchaseAmount : JsValue

/-! ## Handlers of `server-improved.js` -/

/-- The 400 response of both POST handlers. -/
def invalidAddress : Response :=
  ⟨400, .error "Dirección de wallet inválida"⟩

/-- The 409 response of register-wallet. -/
def alreadyRegistered : Response :=
  ⟨409, .error "Esta wallet ya está registrada"⟩

/-- The 404 response of send-reward. -/
def notRegistered : Response :=
  ⟨404, .error "Wallet no registrada. Por favor registra tu wallet primero."⟩

/-- Handler of `POST /api/register-wallet`; `now` is the clock reading. -/
def registerWallet (env : Env) (now : String) (s : State) (body : RegisterBody) : Outcome :=
  match body.walletAddress with
  | .str walletAddress =>
    if !env.isAddress walletAddress then ⟨s, invalidAddress, []⟩
    else
      let normalized := toLowerCase walletAddress
      if mapHas s.customers normalized then ⟨s, alreadyRegistered, []⟩
      else
        let record : Customer :=
          { name := jsOr body.name (.str "Cliente")
            email := jsOr body.email (.str "")
            purchaseCount := 0
            totalRewards := 0
            registeredAt := now
            lastPurchase := none }
        ⟨{ s with customers := mapSet s.customers normalized record },
         ⟨200, .registered "Wallet registrada exitosamente" walletAddress⟩, []⟩
  | _ => ⟨s, invalidAddress, []⟩

/-- The message chosen in the `catch` of send-reward from the raw message of
the error. -/
def sendRewardErrorMessage (message : String) : String :=
  if includes message "insufficient funds" then
    "La wallet del negocio no tiene suficiente ETH para pagar el gas"
  else if includes message "transfer amount exceeds balance" then
    "La wallet del negocio no tiene suficientes ARY tokens"
  else if includes message "nonce" then
    "Error de sincronización. Por favor intenta de nuevo."
  else message

/-- The response of the `catch` of send-reward. -/
def sendRewardFailure (message : String) : Response :=
  ⟨500, .error (sendRewardErrorMessage message)⟩

/-- The update of the customer object after a confirmed transfer. -/
def recordPurchase (env : Env) (now : String) (customer : Customer) : Customer :=
  { customer with
    purchaseCount := customer.purchaseCount + 1
    totalRewards := customer.totalRewards + parseFloat env.REWARD_AMOUNT
    lastPurchase := some now }

/-- Handler of `POST /api/send-reward`; `nowPurchase` and `nowLog` are the two
clock readings, in the order they are taken. -/
def sendReward (env : Env) (nowPurchase nowLog : String) (chain : Chain) (s : State)
    (body : RewardBody) : Outcome :=
  match body.walletAddress with
  | .str walletAddress =>
    if !env.isAddress walletAddress then ⟨s, invalidAddress, []⟩
    else
      let normalized := toLowerCase walletAddress
      if !mapHas s.customers normalized then ⟨s, notRegistered, []⟩
      else
        match chain.decimals with
        | .error message => ⟨s, sendRewardFailure message, [.decimals]⟩
        | .ok decimals =>
        match chain.symbol with
        | .error message => ⟨s, sendRewardFailure message, [.decimals, .symbol]⟩
        | .ok symbol =>
        match chain.parseUnits decimals with
        | .error message => ⟨s, sendRewardFailure message, [.decimals, .symbol]⟩
        | .ok rewardInWei =>
        match chain.transfer with
        | .error message =>
          ⟨s, sendRewardFailure message,
           [.decimals, .symbol, .transfer walletAddress rewardInWei]⟩
        | .ok hash =>
        match chain.wait with
        | .error message =>
          ⟨s, sendRewardFailure message,
           [.decimals, .symbol, .transfer walletAddress rewardInWei, .wait hash]⟩
        | .ok receipt =>
          let customers := mapModify s.customers normalized (recordPurchase env nowPurchase)
          let purchaseCount :=
            match mapGet customers normalized with
            | some customer => customer.purchaseCount
            | none => 0
          let totalRewards : Double :=
            match mapGet customers normalized with
            | some customer => customer.totalRewards
            | none => 0
          let transaction : Transaction :=
            { id := s.transactions.length + 1
              recipient := walletAddress
              amount := env.REWARD_AMOUNT
              symbol := symbol
              txHash := hash
              blockNumber := receipt.blockNumber
              gasUsed := receipt.gasUsed
              purchaseId := jsOr body.purchaseId .null
              purchaseAmount := jsOr body.purchaseAmount .null
              timestamp := nowLog }
          ⟨{ customers := customers, transactions := s.transactions ++ [transaction] },
           ⟨200, .rewardSent "¡Recompensa enviada exitosamente!"
              { amount := env.REWARD_AMOUNT ++ " " ++ symbol
                recipient := walletAddress
                txHash := hash
                explorerUrl := "https://sepolia.etherscan.io/tx/" ++ hash }
              transaction
              { totalPurchases := purchaseCount
                totalRewards := (totalRewards, symbol) }⟩,
           [.decimals, .symbol, .transfer walletAddress rewardInWei, .wait hash]⟩
  | _ => ⟨s, invalidAddress, []⟩

/-- Handler of `GET /api/business-balance`; `read` is what the four parallel
reads yield together. -/
def businessBalance (env : Env) (read : Except String Balances) (s : State) : Outcome :=
  let calls : List ChainCall :=
    [.balanceOf env.businessWallet, .decimals, .symbol, .getBalance env.businessWallet]
  match read with
  | .error message => ⟨s, ⟨500, .error message⟩, calls⟩
  | .ok b =>
    ⟨s, ⟨200, .businessBalance env.businessWallet (b.ary ++ " " ++ b.symbol) (b.eth ++ " ETH")
        s.customers.length s.transactions.length⟩, calls⟩

/-- Handler of `GET /api/customer/:walletAddress`. -/
def getCustomer (s : State) (param : String) : Outcome :=
  let walletAddress := toLowerCase param
  match mapGet s.customers walletAddress with
  | none => ⟨s, ⟨404, .error "Cliente no encontrado"⟩, []⟩
  | some customer =>
    let customerTransactions :=
      s.transactions.filter (fun tx => toLowerCase tx.recipient == walletAddress)
    ⟨s, ⟨200, .customer walletAddress customer customerTransactions⟩, []⟩

/-- The value of `parseInt(req.query.limit) || 50`, from the result of
`parseInt` (`none` is `NaN`, the result for an absent or unreadable value). -/
def limitOrDefault (parsed : Option Int) : Int :=
  match parsed with
  | none => 50
  | some n => if n = 0 then 50 else n

/-- The list `transactions.slice(-limit).reverse()`. -/
def recentTransactions (transactions : List Transaction) (parsed : Option Int) :
    List Transaction :=
  (jsSlice transactions (-(limitOrDefault parsed))).reverse

/-- Handler of `GET /api/transactions`; `parsed` is `parseInt(req.query.limit)`. -/
def getTransactions (s : State) (parsed : Option Int) : Outcome :=
  ⟨s, ⟨200, .transactions s.transactions.length (recentTransactions s.transactions parsed)⟩, []⟩

/-- Handler of `GET /health`. -/
def health (env : Env) (now : String) (s : State) : Outcome :=
  ⟨s, ⟨200, .health now env.businessWallet⟩, []⟩

/-- A request to `server-improved.js`, with everything the outside world
contributes while it is served. -/
inductive Request where
  | registerWallet (now : String) (body : RegisterBody)
  | sendReward (nowPurchase nowLog : String) (chain : Chain) (body : RewardBody)
  | businessBalance (read : Except String Balances)
  | customer (param : String)
  | transactions (parsed : Option Int)
  | health (now : String)

/-- The server serving one request. -/
def handle (env : Env) (s : State) : Request → Outcome
  | .registerWallet now body => registerWallet env now s body
  | .sendReward nowPurchase nowLog chain body => sendReward env nowPurchase nowLog chain s body
  | .businessBalance read => businessBalance env read s
  | .customer param => getCustomer s param
  | .transactions parsed => getTransactions s parsed
  | .health now => health env now s

/-- The state after serving the requests one after the other. -/
def run (env : Env) (s : State) : List Request → State
  | [] => s
  | r :: rest => run env (handle env s r).state rest

/-- A state the server can be in: the one some sequence of requests leads to
from the state at process start. -/
def Reachable (env : Env) (s : State) : Prop :=
  ∃ requests : List Request, run env State.init requests = s

/-- The largest id in a log, 0 for the empty log. -/
def maxId (log : List Transaction) : Nat :=
  log.foldr (fun tx m => max tx.id m) 0

/-- Ids of a log are its positions counted from 1. -/
def WellNumbered (log : List Transaction) : Prop :=
  ∀ i (h : i < log.length), log[i].id = i + 1

/-! ## Address patterns -/

/-- One of the characters `0-9`, `a-f`, `A-F`. -/
def isHexDigit (c : Char) : Bool :=
  ('0' ≤ c && c ≤ '9') || ('a' ≤ c && c ≤ 'f') || ('A' ≤ c && c ≤ 'F')

/-- The text is `0x` followed by exactly 40 hexadecimal digits, in any letter
case. -/
def IsHexAddress (input : String) : Prop :=
  ∃ digits : List Char,
    digits.length = 40 ∧ (∀ c ∈ digits, isHexDigit c = true) ∧
      input = String.mk ('0' :: 'x' :: digits)

/-- One of the letters `A`..`F`. -/
def isUpperHexLetter (c : Char) : Bool :=
  'A' ≤ c && c ≤ 'F'

/-- One of the letters `a`..`f`. -/
def isLowerHexLetter (c : Char) : Bool :=
  'a' ≤ c && c ≤ 'f'

/-- The address validator of the worked examples: 40 hexadecimal digits, with or
without `0x` in front, whose letters are all of one case. A text with letters of
both cases carries a checksum, which this validator does not compute: it refuses
every such text, as the library does when the checksum is wrong, and no example
relies on one being accepted. -/
def exampleIsAddress (text : String) : Bool :=
  let digits : List Char :=
    match text.data with
    | '0' :: 'x' :: rest => rest
    | all => all
  digits.length == 40 && digits.all isHexDigit &&
    !(digits.any isUpperHexLetter && digits.any isLowerHexLetter)

/-- The test `preg_match('/^0x[a-fA-F0-9]{40}$/', $wallet)` of the storefront
plugin. Without the `D` modifier, `$` holds at the very end of the subject and
also just before a newline that is its last character. -/
def preg_match_wallet (wallet : String) : Bool :=
  match wallet.data with
  | '0' :: 'x' :: rest =>
    (rest.take 40).length == 40 && (rest.take 40).all isHexDigit &&
      (rest.drop 40 == [] || rest.drop 40 == [Char.ofNat 10])
  | _ => false

/-- The test `empty($value)` of PHP on a string. -/
def php_empty (value : String) : Bool :=
  value == "" || value == "0"

/-- The function `ary_validate_wallet_field` of the storefront plugin: whether
it adds the error notice. `customer_wallet` is the posted field (`none` when it
is not set) and `sanitize_text_field` is the function of that name of the
hosting platform. -/
def ary_validate_wallet_field (sanitize_text_field : String → String)
    (customer_wallet : Option String) : Bool :=
  let wallet :=
    match customer_wallet with
    | some value => sanitize_text_field value
    | none => ""
  !php_empty wallet && !preg_match_wallet wallet

/-- The message chosen in the `catch` of quick-reward in `quick-server.js`. -/
def quickRewardErrorMessage (message : String) : String :=
  if includes message "insufficient funds" then "Sin suficiente ETH para gas"
  else if includes message "transfer amount exceeds balance" then "Sin suficientes ARY tokens"
  else message

/-- The call `ethers.isAddress(value)` on a value of a body: a type guard for
strings, so `false` on anything else. -/
def ethersIsAddress (env : Env) (value : JsValue) : Bool :=
  match value with
  | .str s => env.isAddress s
  | _ => false

/-- The `transaction.id` and `customerStats.totalPurchases` of a response, when
it is the success response of send-reward. -/
def Response.rewardIds (r : Response) : Option (Nat × Nat) :=
  match r.body with
  | .rewardSent _ _ transaction customerStats =>
    some (transaction.id, customerStats.totalPurchases)
  | _ => none

/-- An environment for worked examples: the example validator, no
`REWARD_AMOUNT` variable (so the reward is `"5"`) and a business wallet. -/
def exampleEnv : Env :=
  { isAddress := exampleIsAddress
    rewardAmountVariable := none
    businessWallet := "0x00000000000000000000000000000000000000b1" }

/-- The example environment with the variable `REWARD_AMOUNT` set to `0.1`. -/
def tenthEnv : Env :=
  { exampleEnv with rewardAmountVariable := some "0.1" }

/-- A chain of 18 decimals on which every call succeeds, for the reward amount
`5`. -/
def chainOk : Chain :=
  { decimals := .ok 18
    symbol := .ok "ARY"
    parseUnits := fun _ => .ok 5000000000000000000
    transfer := .ok "0xaa"
    wait := .ok ⟨7, "52000"⟩ }

/-- The address of the scenario of section 8 of the spec. -/
def addrScenario : String :=
  "0xABCDEF0123456789ABCDEF0123456789ABCDEF01"

/-- The state after registering the address of the scenario. -/
def stateRegistered : State :=
  (registerWallet exampleEnv "t0" State.init ⟨.str addrScenario, .undefined, .undefined⟩).state

/-- The state after registering the address of the scenario and rewarding it
once. -/
def stateRewarded : State :=
  (sendReward exampleEnv "t1" "t2" chainOk stateRegistered
    ⟨.str addrScenario, .num 42, .undefined⟩).state

/-- A chain of 18 decimals on which every call succeeds, for the reward amount
`0.1`. -/
def chainTenth : Chain :=
  { chainOk with parseUnits := fun _ => .ok 100000000000000000 }

/-- The state reached with `REWARD_AMOUNT` set to `0.1` by registering the
address of the scenario and rewarding it twice. -/
def stateTwoTenths : State :=
  run tenthEnv State.init
    [.registerWallet "t0" ⟨.str addrScenario, .undefined, .undefined⟩,
     .sendReward "t1" "t2" chainTenth ⟨.str addrScenario, .undefined, .undefined⟩,
     .sendReward "t3" "t4" chainTenth ⟨.str addrScenario, .undefined, .undefined⟩]

/-! ## Derived quantities of a state -/

/-- The entries of a log whose recipient lower-cases to `key`, in log order. -/
def ownedBy (key : String) (log : List Transaction) : List Transaction :=
  log.filter (fun tx => toLowerCase tx.recipient == key)

/-- The sum of purchaseCount over all customers. -/
def totalPurchases (m : List (String × Customer)) : Nat :=
  (m.map (fun e => e.2.purchaseCount)).sum

/-- The state after registering a second customer in `stateRewarded`. -/
def stateTwoCustomers : State :=
  (registerWallet exampleEnv "t3" stateRewarded
    ⟨.str "0x1111111111111111111111111111111111111111", .str "Eva", .undefined⟩).state

/-! ## The quick server (`quick-server.js`) -/

namespace Quick

/-- The constant `REWARD_AMOUNT` of `quick-server.js`, the text `"5"`. -/
def REWARD_AMOUNT : Nat :=
  5

/-- What the chain answers to the calls of one quick-reward request, were they
made; `metadata` is what the two parallel reads of decimals and symbol yield
together. -/
structure Chain where
  metadata : Except String (Nat × String)
  transfer : Except String String
  wait : Except String Receipt

/-- The `details` object of a successful quick-reward response. -/
structure Details where
  recipient : String
  amount : String
  txHash : String
  blockNumber : Nat
  explorerUrl : String
  transactionNumber : Nat
  deriving DecidableEq, Repr

/-- The JSON body of a response of the quick server. -/
inductive Body where
  | error (error : String)
  | sent (message : String) (details : Details)
  | status (wallet ary eth : String) (totalTransactions : Nat) (rewardAmount : String)
  | health (timestamp : String)
  deriving DecidableEq, Repr

/-- An HTTP response of the quick server. -/
structure Response where
  status : Nat
  body : Body
  deriving DecidableEq, Repr

/-- What a handler of the quick server leaves behind: the counter, the response
and the chain calls it made. -/
structure Outcome where
  transactionCount : Nat
  response : Response
  calls : List ChainCall

/-- The response of the `catch` of quick-reward. -/
def failure (message : String) : Response :=
  ⟨500, .error (quickRewardErrorMessage message)⟩

/-- Handler of `POST /api/quick-reward`; `transactionCount` is the counter of
the process and `walletAddress` the field of the body. -/
def quickReward (env : Env) (chain : Chain) (transactionCount : Nat)
    (walletAddress : JsValue) : Outcome :=
  if !walletAddress.truthy || !ethersIsAddress env walletAddress then
    ⟨transactionCount, ⟨400, .error "Dirección de wallet inválida"⟩, []⟩
  else
    match walletAddress with
    | .str recipient =>
      match chain.metadata with
      | .error message => ⟨transactionCount, failure message, [.decimals, .symbol]⟩
      | .ok (decimals, symbol) =>
      let rewardInWei := REWARD_AMOUNT * 10 ^ decimals
      match chain.transfer with
      | .error message =>
        ⟨transactionCount, failure message,
         [.decimals, .symbol, .transfer recipient rewardInWei]⟩
      | .ok hash =>
      match chain.wait with
      | .error message =>
        ⟨transactionCount, failure message,
         [.decimals, .symbol, .transfer recipient rewardInWei, .wait hash]⟩
      | .ok receipt =>
        ⟨transactionCount + 1,
         ⟨200, .sent ("¡" ++ toString REWARD_AMOUNT ++ " " ++ symbol ++ " enviados exitosamente!")
            { recipient := recipient
              amount := toString REWARD_AMOUNT ++ " " ++ symbol
              txHash := hash
              blockNumber := receipt.blockNumber
              explorerUrl := "https://sepolia.etherscan.io/tx/" ++ hash
              transactionNumber := transactionCount + 1 }⟩,
         [.decimals, .symbol, .transfer recipient rewardInWei, .wait hash]⟩
    | _ => ⟨transactionCount, ⟨400, .error "Dirección de wallet inválida"⟩, []⟩

/-- Handler of `GET /api/status`; `read` is what the four parallel reads yield
together. -/
def status (env : Env) (read : Except String Balances) (transactionCount : Nat) : Outcome :=
  let calls : List ChainCall :=
    [.balanceOf env.businessWallet, .getBalance env.businessWallet, .decimals, .symbol]
  match read with
  | .error message => ⟨transactionCount, ⟨500, .error message⟩, calls⟩
  | .ok b =>
    ⟨transactionCount,
     ⟨200, .status env.businessWallet (b.ary ++ " " ++ b.symbol) (b.eth ++ " ETH")
        transactionCount (toString REWARD_AMOUNT ++ " " ++ b.symbol)⟩, calls⟩

/-- Handler of `GET /health` of the quick server. -/
def health (now : String) (transactionCount : Nat) : Outcome :=
  ⟨transactionCount, ⟨200, .health now⟩, []⟩

/-- A request to the quick server, with what the outside world contributes
while it is served. -/
inductive Request where
  | quickReward (chain : Chain) (walletAddress : JsValue)
  | status (read : Except String Balances)
  | health (now : String)

/-- The quick server serving one request. -/
def handle (env : Env) (transactionCount : Nat) : Request → Outcome
  | .quickReward chain walletAddress => quickReward env chain transactionCount walletAddress
  | .status read => status env read transactionCount
  | .health now => health now transactionCount

/-- The counter after serving the requests one after the other. -/
def run (env : Env) (transactionCount : Nat) : List Request → Nat
  | [] => transactionCount
  | r :: rest => run env (handle env transactionCount r).transactionCount rest

/-- The responses given while serving the requests one after the other. -/
def responses (env : Env) (transactionCount : Nat) : List Request → List Response
  | [] => []
  | r :: rest =>
    (handle env transactionCount r).response ::
      responses env (handle env transactionCount r).transactionCount rest

/-- Whether a response is the success response of quick-reward. -/
def Response.isSent (r : Response) : Bool :=
  match r.body with
  | .sent _ _ => true
  | _ => false

/-- A chain on which every call of a quick-reward request succeeds. -/
def chainOk : Chain :=
  { metadata := .ok (18, "ARY")
    transfer := .ok "0xbb"
    wait := .ok ⟨9, "51000"⟩ }

end Quick

/-- One of the characters `0-9`, `a-f`. -/
def isLowerHexDigit (c : Char) : Bool :=
  ('0' ≤ c && c ≤ '9') || ('a' ≤ c && c ≤ 'f')

/-- The text is `0x` followed by exactly 40 digits among `0-9`, `a-f`. -/
def IsLowerHexAddress (key : String) : Prop :=
  ∃ digits : List Char,
    digits.length = 40 ∧ (∀ c ∈ digits, isLowerHexDigit c = true) ∧
      key = String.mk ('0' :: 'x' :: digits)

/-- The bookkeeping that ties the registry to the log: keys are distinct, the
purchaseCount stored under a key is the number of log entries of that key, every
log entry has a registered key, and the purchase counts add up to the length of
the log. -/
def Consistent (s : State) : Prop :=
  (s.customers.map Prod.fst).Nodup ∧
    (∀ (key : String) (c : Customer), mapGet s.customers key = some c →
      c.purchaseCount = (ownedBy key s.transactions).length) ∧
    (∀ tx ∈ s.transactions, mapHas s.customers (toLowerCase tx.recipient) = true) ∧
    totalPurchases s.customers = s.transactions.length

end Rewards


namespace Rewards

/-! ## Lemmas on the customers map -/

theorem mapHas_eq_isSome (m : List (String × Customer)) (key : String) :
    mapHas m key = (mapGet m key).isSome := by
  induction m with
  | nil => rfl
  | cons e rest ih =>
    by_cases h : (e.1 == key) = true
    · simp [mapHas, mapGet, h]
    · have ih2 : rest.any (fun e => e.1 == key) = (mapGet rest key).isSome := ih
      simp [mapHas, mapGet, h, ih2]

theorem mapGet_mapSet_self (m : List (String × Customer)) (key : String) (value : Customer) :
    mapGet (mapSet m key value) key = some value := by
  induction m with
  | nil => simp [mapSet, mapGet]
  | cons e rest ih =>
    by_cases h : (e.1 == key) = true
    · simp [mapSet, mapGet, h]
    · simp [mapSet, mapGet, h, ih]

theorem mapGet_mapSet_ne (m : List (String × Customer)) (key other : String) (value : Customer)
    (hne : other ≠ key) : mapGet (mapSet m key value) other = mapGet m other := by
  induction m with
  | nil =>
    have h : ¬ key = other := fun h => hne h.symm
    simp [mapSet, mapGet, h]
  | cons e rest ih =>
    by_cases h : (e.1 == key) = true
    · have hk : e.1 = key := by simpa using h
      have h1 : ¬ key = other := fun h => hne h.symm
      have h2 : ¬ e.1 = other := by rw [hk]; exact h1
      simp [mapSet, mapGet, h, h1, h2]
    · by_cases h3 : (e.1 == other) = true
      · simp [mapSet, mapGet, h, h3]
      · simp [mapSet, mapGet, h, h3, ih]

theorem mapGet_mapModify_self (m : List (String × Customer)) (key : String)
    (f : Customer → Customer) :
    mapGet (mapModify m key f) key = (mapGet m key).map f := by
  induction m with
  | nil => rfl
  | cons e rest ih =>
    by_cases h : (e.1 == key) = true
    · simp [mapModify, mapGet, h]
    · simp [mapModify, mapGet, h, ih]

theorem mapGet_mapModify_ne (m : List (String × Customer)) (key other : String)
    (f : Customer → Customer) (hne : other ≠ key) :
    mapGet (mapModify m key f) other = mapGet m other := by
  induction m with
  | nil => rfl
  | cons e rest ih =>
    by_cases h : (e.1 == key) = true
    · have hk : e.1 = key := by simpa using h
      have h2 : ¬ e.1 = other := by rw [hk]; exact fun h => hne h.symm
      simp [mapModify, mapGet, h, h2]
    · by_cases h3 : (e.1 == other) = true
      · simp [mapModify, mapGet, h, h3]
      · simp [mapModify, mapGet, h, h3, ih]

theorem map_fst_mapModify (m : List (String × Customer)) (key : String)
    (f : Customer → Customer) :
    (mapModify m key f).map Prod.fst = m.map Prod.fst := by
  induction m with
  | nil => rfl
  | cons e rest ih =>
    by_cases h : (e.1 == key) = true
    · simp [mapModify, h]
    · simp [mapModify, h, ih]

/-! ## Lemmas on the numbering of the log -/

theorem maxId_append (log : List Transaction) (tx : Transaction) :
    maxId (log ++ [tx]) = max (maxId log) tx.id := by
  induction log with
  | nil => simp [maxId]
  | cons t rest ih =>
    have ih2 : List.foldr (fun tx m => max tx.id m) 0 (rest ++ [tx]) =
        max (List.foldr (fun tx m => max tx.id m) 0 rest) tx.id := ih
    simp only [maxId, List.cons_append, List.foldr_cons, ih2]
    omega

theorem wellNumbered_nil : WellNumbered [] := by
  intro i h
  simp at h

theorem wellNumbered_append (log : List Transaction) (tx : Transaction)
    (h : WellNumbered log) (hid : tx.id = log.length + 1) : WellNumbered (log ++ [tx]) := by
  intro i hi
  by_cases hlt : i < log.length
  · rw [List.getElem_append_left hlt]
    exact h i hlt
  · have hi2 : i = log.length := by
      simp at hi
      omega
    subst hi2
    simp [hid]

theorem wellNumbered_init (log : List Transaction) (tx : Transaction)
    (h : WellNumbered (log ++ [tx])) : WellNumbered log ∧ tx.id = log.length + 1 := by
  constructor
  · intro i hi
    have h2 := h i (by simp; omega)
    rw [List.getElem_append_left hi] at h2
    exact h2
  · have h2 := h log.length (by simp)
    simpa using h2

theorem maxId_of_wellNumbered (log : List Transaction) (h : WellNumbered log) :
    maxId log = log.length := by
  induction log using List.reverseRecOn with
  | nil => rfl
  | append_singleton rest tx ih =>
    obtain ⟨h1, h2⟩ := wellNumbered_init rest tx h
    rw [maxId_append, ih h1, h2]
    simp

/-- What any request does to the log: nothing, or one entry appended whose id
is the old length plus one. -/
theorem handle_transactions (env : Env) (s : State) (r : Request) :
    (handle env s r).state.transactions = s.transactions ∨
      ∃ tx : Transaction, tx.id = s.transactions.length + 1 ∧
        (handle env s r).state.transactions = s.transactions ++ [tx] := by
  cases r with
  | registerWallet now body =>
    left
    simp only [handle, registerWallet]
    split
    · split
      · rfl
      · split <;> rfl
    · rfl
  | sendReward nowPurchase nowLog chain body =>
    simp only [handle, sendReward]
    split
    · split
      · left; rfl
      · split
        · left; rfl
        · split
          · left; rfl
          · split
            · left; rfl
            · split
              · left; rfl
              · split
                · left; rfl
                · split
                  · left; rfl
                  · right
                    exact ⟨_, rfl, rfl⟩
    · left; rfl
  | businessBalance read =>
    left
    simp only [handle, businessBalance]
    split <;> rfl
  | customer param =>
    left
    simp only [handle, getCustomer]
    split <;> rfl
  | transactions parsed => left; rfl
  | health now => left; rfl

theorem run_wellNumbered (env : Env) (requests : List Request) (s : State)
    (h : WellNumbered s.transactions) : WellNumbered (run env s requests).transactions := by
  induction requests generalizing s with
  | nil => exact h
  | cons r rest ih =>
    apply ih
    rcases handle_transactions env s r with h1 | ⟨tx, hid, h1⟩
    · rw [h1]; exact h
    · rw [h1]; exact wellNumbered_append _ _ h hid

theorem reachable_wellNumbered (env : Env) (s : State) (h : Reachable env s) :
    WellNumbered s.transactions := by
  obtain ⟨requests, rfl⟩ := h
  exact run_wellNumbered env requests State.init wellNumbered_nil

end Rewards

namespace Rewards

/-! ## Successful rewards -/

/-- The outcome of send-reward when every step succeeds, written out. -/
theorem sendReward_confirmed (env : Env) (s : State) (nowPurchase nowLog : String)
    (chain : Chain) (w : String) (purchaseId purchaseAmount : JsValue) (c : Customer)
    (decimals : Nat) (symbol hash : String) (wei : Int) (receipt : Receipt)
    (hvalid : env.isAddress w = true)
    (hreg : mapGet s.customers (toLowerCase w) = some c)
    (hd : chain.decimals = .ok decimals) (hs : chain.symbol = .ok symbol)
    (hunits : chain.parseUnits decimals = .ok wei)
    (ht : chain.transfer = .ok hash) (hwait : chain.wait = .ok receipt) :
    sendReward env nowPurchase nowLog chain s ⟨.str w, purchaseId, purchaseAmount⟩ =
      ⟨{ customers := mapModify s.customers (toLowerCase w) (recordPurchase env nowPurchase)
         transactions := s.transactions ++
           [{ id := s.transactions.length + 1
              recipient := w
              amount := env.REWARD_AMOUNT
              symbol := symbol
              txHash := hash
              blockNumber := receipt.blockNumber
              gasUsed := receipt.gasUsed
              purchaseId := jsOr purchaseId .null
              purchaseAmount := jsOr purchaseAmount .null
              timestamp := nowLog }] },
       ⟨200, .rewardSent "¡Recompensa enviada exitosamente!"
          { amount := env.REWARD_AMOUNT ++ " " ++ symbol
            recipient := w
            txHash := hash
            explorerUrl := "https://sepolia.etherscan.io/tx/" ++ hash }
          { id := s.transactions.length + 1
            recipient := w
            amount := env.REWARD_AMOUNT
            symbol := symbol
            txHash := hash
            blockNumber := receipt.blockNumber
            gasUsed := receipt.gasUsed
            purchaseId := jsOr purchaseId .null
            purchaseAmount := jsOr purchaseAmount .null
            timestamp := nowLog }
          { totalPurchases := c.purchaseCount + 1
            totalRewards := (c.totalRewards + parseFloat env.REWARD_AMOUNT, symbol) }⟩,
       [.decimals, .symbol, .transfer w wei, .wait hash]⟩ := by
  have hhas : mapHas s.customers (toLowerCase w) = true := by
    rw [mapHas_eq_isSome, hreg]; rfl
  have hget : mapGet (mapModify s.customers (toLowerCase w) (recordPurchase env nowPurchase))
      (toLowerCase w) = some (recordPurchase env nowPurchase c) := by
    rw [mapGet_mapModify_self, hreg]; rfl
  simp only [sendReward, hvalid, hhas, hd, hs, hunits, ht, hwait, hget]
  rfl

/-- C1, amended: in every reachable state, a send-reward request for a valid,
registered address on which the metadata reads, the transfer and the
confirmation succeed appends exactly one transaction; its id is the previous
maximum id plus one (1 on an empty log); the purchaseCount of the customer grows
by exactly 1; the totalRewards becomes the double-precision sum of its previous
value and of `parseFloat` of the reward amount text; and the totalPurchases of
the response is the new purchaseCount. -/
theorem sendReward_success_appends_one (env : Env) (s : State) (nowPurchase nowLog : String)
    (chain : Chain) (w : String) (purchaseId purchaseAmount : JsValue) (c : Customer)
    (decimals : Nat) (symbol hash : String) (wei : Int) (receipt : Receipt)
    (hreach : Reachable env s)
    (hvalid : env.isAddress w = true)
    (hreg : mapGet s.customers (toLowerCase w) = some c)
    (hd : chain.decimals = .ok decimals) (hs : chain.symbol = .ok symbol)
    (hunits : chain.parseUnits decimals = .ok wei)
    (ht : chain.transfer = .ok hash) (hwait : chain.wait = .ok receipt) :
    ∃ (tx : Transaction) (c2 : Customer) (message : String) (reward : Reward)
        (stats : CustomerStats),
      (sendReward env nowPurchase nowLog chain s
          ⟨.str w, purchaseId, purchaseAmount⟩).state.transactions = s.transactions ++ [tx] ∧
      tx.id = maxId s.transactions + 1 ∧
      (s.transactions = [] → tx.id = 1) ∧
      mapGet (sendReward env nowPurchase nowLog chain s
          ⟨.str w, purchaseId, purchaseAmount⟩).state.customers (toLowerCase w) = some c2 ∧
      c2.purchaseCount = c.purchaseCount + 1 ∧
      c2.totalRewards = Double.add c.totalRewards (parseFloat env.REWARD_AMOUNT) ∧
      (sendReward env nowPurchase nowLog chain s
          ⟨.str w, purchaseId, purchaseAmount⟩).response =
        ⟨200, .rewardSent message reward tx stats⟩ ∧
      stats.totalPurchases = c2.purchaseCount := by
  have hmax : maxId s.transactions = s.transactions.length :=
    maxId_of_wellNumbered _ (reachable_wellNumbered env s hreach)
  have hget : mapGet (mapModify s.customers (toLowerCase w) (recordPurchase env nowPurchase))
      (toLowerCase w) = some (recordPurchase env nowPurchase c) := by
    rw [mapGet_mapModify_self, hreg]; rfl
  rw [sendReward_confirmed env s nowPurchase nowLog chain w purchaseId purchaseAmount c decimals
    symbol hash wei receipt hvalid hreg hd hs hunits ht hwait]
  refine ⟨_, recordPurchase env nowPurchase c, _, _, _, rfl, ?_, ?_, hget, rfl, rfl, rfl, rfl⟩
  · simp only [hmax]
  · intro h
    simp [h]

/-- The scenario of C1 with the default reward amount: after registering the
address, the first reward has id 1 and totalPurchases 1, the second has id 2 and
totalPurchases 2, and the total of the customer is then 10; and the theorem
applied to the first reward. -/
theorem sendReward_success_appends_one_witness :
    (registerWallet exampleEnv "t0" State.init
        ⟨.str addrScenario, .undefined, .undefined⟩).response.status = 200 ∧
    (sendReward exampleEnv "t1" "t2" chainOk stateRegistered
        ⟨.str addrScenario, .num 42, .undefined⟩).response.rewardIds = some (1, 1) ∧
    (sendReward exampleEnv "t3" "t4" chainOk
        (sendReward exampleEnv "t1" "t2" chainOk stateRegistered
          ⟨.str addrScenario, .num 42, .undefined⟩).state
        ⟨.str addrScenario, .num 42, .undefined⟩).response.rewardIds = some (2, 2) ∧
    (sendReward exampleEnv "t3" "t4" chainOk
        (sendReward exampleEnv "t1" "t2" chainOk stateRegistered
          ⟨.str addrScenario, .num 42, .undefined⟩).state
        ⟨.str addrScenario, .num 42, .undefined⟩).state.customers.map
        (fun e => e.2.totalRewards) = [10] ∧
    ∃ (tx : Transaction) (c2 : Customer) (message : String) (reward : Reward)
        (stats : CustomerStats),
      (sendReward exampleEnv "t1" "t2" chainOk stateRegistered
          ⟨.str addrScenario, .num 42, .undefined⟩).state.transactions =
        stateRegistered.transactions ++ [tx] ∧
      tx.id = maxId stateRegistered.transactions + 1 ∧
      (stateRegistered.transactions = [] → tx.id = 1) ∧
      mapGet (sendReward exampleEnv "t1" "t2" chainOk stateRegistered
          ⟨.str addrScenario, .num 42, .undefined⟩).state.customers
          (toLowerCase addrScenario) = some c2 ∧
      c2.purchaseCount = 0 + 1 ∧
      c2.totalRewards = Double.add 0 (parseFloat exampleEnv.REWARD_AMOUNT) ∧
      (sendReward exampleEnv "t1" "t2" chainOk stateRegistered
          ⟨.str addrScenario, .num 42, .undefined⟩).response =
        ⟨200, .rewardSent message reward tx stats⟩ ∧
      stats.totalPurchases = c2.purchaseCount :=
  ⟨by decide, by decide, by decide, by decide,
    sendReward_success_appends_one exampleEnv stateRegistered "t1" "t2" chainOk addrScenario
      (.num 42) .undefined ⟨.str "Cliente", .str "", 0, 0, "t0", none⟩ 18 "ARY" "0xaa"
      5000000000000000000 ⟨7, "52000"⟩
      ⟨[.registerWallet "t0" ⟨.str addrScenario, .undefined, .undefined⟩], rfl⟩
      (by decide) (by decide) rfl rfl rfl rfl rfl⟩

/-- C1 as stated fails on the amount of a reward: with `REWARD_AMOUNT` set to
`0.1`, a customer rewarded twice has the total 0.2, and the third successful
reward leaves the total at 0.30000000000000004, which is not 0.3: as numbers,
the increase is neither the tenth of the text nor the number that `parseFloat`
reads from it. -/
theorem sendReward_total_not_exact :
    Reachable tenthEnv stateTwoTenths ∧
      stateTwoTenths.customers.map (fun e => e.2.totalRewards) = [parseFloat "0.2"] ∧
      (sendReward tenthEnv "t5" "t6" chainTenth stateTwoTenths
        ⟨.str addrScenario, .undefined, .undefined⟩).response.status = 200 ∧
      (sendReward tenthEnv "t5" "t6" chainTenth stateTwoTenths
        ⟨.str addrScenario, .undefined, .undefined⟩).state.customers.map
        (fun e => e.2.totalRewards) = [parseFloat "0.30000000000000004"] ∧
      parseFloat "0.30000000000000004" ≠ parseFloat "0.3" ∧
      (parseFloat "0.30000000000000004").toRat - (parseFloat "0.2").toRat ≠
        (parseFloat tenthEnv.REWARD_AMOUNT).toRat ∧
      (parseFloat "0.30000000000000004").toRat - (parseFloat "0.2").toRat ≠ 1 / 10 := by
  have h1 : parseFloat "0.30000000000000004" = .finite false 5404319552844596 (-54) := by
    decide
  have h2 : parseFloat "0.2" = .finite false 7205759403792794 (-55) := by decide
  have h3 : parseFloat tenthEnv.REWARD_AMOUNT = .finite false 7205759403792794 (-56) := by
    decide
  refine ⟨⟨[.registerWallet "t0" ⟨.str addrScenario, .undefined, .undefined⟩,
      .sendReward "t1" "t2" chainTenth ⟨.str addrScenario, .undefined, .undefined⟩,
      .sendReward "t3" "t4" chainTenth ⟨.str addrScenario, .undefined, .undefined⟩], rfl⟩,
    ?_, by decide, ?_, by decide, ?_, ?_⟩
  · rw [h2]
    decide
  · rw [h1]
    decide
  · rw [h1, h2, h3]
    norm_num [Double.toRat]
  · rw [h1, h2]
    norm_num [Double.toRat]

/-! ## Rejections -/

/-- C2: for every state and every valid address whose lower-cased form is not a
key of the registry, send-reward answers 404 with the not-registered message,
makes no chain call and leaves the registry and the log as they were. -/
theorem sendReward_unregistered (env : Env) (s : State) (nowPurchase nowLog : String)
    (chain : Chain) (w : String) (purchaseId purchaseAmount : JsValue)
    (hvalid : env.isAddress w = true)
    (hnot : mapHas s.customers (toLowerCase w) = false) :
    (sendReward env nowPurchase nowLog chain s ⟨.str w, purchaseId, purchaseAmount⟩).response =
        ⟨404, .error "Wallet no registrada. Por favor registra tu wallet primero."⟩ ∧
      (sendReward env nowPurchase nowLog chain s ⟨.str w, purchaseId, purchaseAmount⟩).calls = [] ∧
      (sendReward env nowPurchase nowLog chain s
          ⟨.str w, purchaseId, purchaseAmount⟩).state.transactions.length =
        s.transactions.length ∧
      (sendReward env nowPurchase nowLog chain s
          ⟨.str w, purchaseId, purchaseAmount⟩).state.transactions = s.transactions ∧
      (sendReward env nowPurchase nowLog chain s
          ⟨.str w, purchaseId, purchaseAmount⟩).state.customers = s.customers := by
  simp [sendReward, hvalid, hnot, notRegistered]

/-- The scenario of C2: a reward to the never-registered address of the spec, in
a state with one customer. -/
theorem sendReward_unregistered_witness :
    (sendReward exampleEnv "t1" "t2" chainOk stateRegistered
        ⟨.str "0x1111111111111111111111111111111111111111", .undefined, .undefined⟩).response =
        ⟨404, .error "Wallet no registrada. Por favor registra tu wallet primero."⟩ ∧
      (sendReward exampleEnv "t1" "t2" chainOk stateRegistered
        ⟨.str "0x1111111111111111111111111111111111111111", .undefined, .undefined⟩).calls = [] ∧
      (sendReward exampleEnv "t1" "t2" chainOk stateRegistered
          ⟨.str "0x1111111111111111111111111111111111111111", .undefined,
            .undefined⟩).state.transactions.length =
        stateRegistered.transactions.length ∧
      (sendReward exampleEnv "t1" "t2" chainOk stateRegistered
          ⟨.str "0x1111111111111111111111111111111111111111", .undefined,
            .undefined⟩).state.transactions = stateRegistered.transactions ∧
      (sendReward exampleEnv "t1" "t2" chainOk stateRegistered
          ⟨.str "0x1111111111111111111111111111111111111111", .undefined,
            .undefined⟩).state.customers = stateRegistered.customers :=
  sendReward_unregistered exampleEnv stateRegistered "t1" "t2" chainOk
    "0x1111111111111111111111111111111111111111" .undefined .undefined (by decide) (by decide)

/-- C3, amended: when register-wallet of `a` succeeds, a following
register-wallet of any text `b` with the same lower-cased form, whatever its
name and email, fails and changes nothing: it answers 409 with the
already-registered message when `b` passes the address validation and 400 with
the invalid-address message when it does not, and either way the record stored
by the first call, with its name, email, counters and registration time, is
still the one stored, and so is the rest of the registry. -/
theorem registerWallet_twice (env : Env) (s : State) (now1 now2 : String) (a b : String)
    (name1 email1 name2 email2 : JsValue)
    (hfirst : (registerWallet env now1 s ⟨.str a, name1, email1⟩).response.status = 200)
    (hab : toLowerCase b = toLowerCase a) :
    (env.isAddress b = true →
      (registerWallet env now2 (registerWallet env now1 s ⟨.str a, name1, email1⟩).state
        ⟨.str b, name2, email2⟩).response =
        ⟨409, .error "Esta wallet ya está registrada"⟩) ∧
      (env.isAddress b = false →
        (registerWallet env now2 (registerWallet env now1 s ⟨.str a, name1, email1⟩).state
          ⟨.str b, name2, email2⟩).response =
          ⟨400, .error "Dirección de wallet inválida"⟩) ∧
      (registerWallet env now2 (registerWallet env now1 s ⟨.str a, name1, email1⟩).state
        ⟨.str b, name2, email2⟩).state =
        (registerWallet env now1 s ⟨.str a, name1, email1⟩).state ∧
      mapGet (registerWallet env now2 (registerWallet env now1 s ⟨.str a, name1, email1⟩).state
          ⟨.str b, name2, email2⟩).state.customers (toLowerCase a) =
        some { name := jsOr name1 (.str "Cliente")
               email := jsOr email1 (.str "")
               purchaseCount := 0
               totalRewards := 0
               registeredAt := now1
               lastPurchase := none } := by
  by_cases hva : env.isAddress a = true
  · by_cases hhas : mapHas s.customers (toLowerCase a) = true
    · simp [registerWallet, hva, hhas, alreadyRegistered] at hfirst
    · have hset : mapHas (mapSet s.customers (toLowerCase a)
          { name := jsOr name1 (.str "Cliente")
            email := jsOr email1 (.str "")
            purchaseCount := 0
            totalRewards := 0
            registeredAt := now1
            lastPurchase := none }) (toLowerCase a) = true := by
        rw [mapHas_eq_isSome, mapGet_mapSet_self]; rfl
      cases hb : env.isAddress b
      · simp [registerWallet, hva, hhas, hb, invalidAddress, mapGet_mapSet_self]
      · simp [registerWallet, hva, hhas, hb, hab, hset, alreadyRegistered, mapGet_mapSet_self]
  · simp [registerWallet, hva, invalidAddress] at hfirst

/-- An instance of C3 as amended: the address of the scenario registered, then
registered again in lower case under another name. -/
theorem registerWallet_twice_witness :
    (registerWallet exampleEnv "t9"
        (registerWallet exampleEnv "t0" State.init
          ⟨.str addrScenario, .str "Ana", .undefined⟩).state
        ⟨.str (toLowerCase addrScenario), .str "Eva", .str "eva@example.org"⟩).response =
        ⟨409, .error "Esta wallet ya está registrada"⟩ ∧
      (registerWallet exampleEnv "t9"
        (registerWallet exampleEnv "t0" State.init
          ⟨.str addrScenario, .str "Ana", .undefined⟩).state
        ⟨.str (toLowerCase addrScenario), .str "Eva", .str "eva@example.org"⟩).state =
        (registerWallet exampleEnv "t0" State.init
          ⟨.str addrScenario, .str "Ana", .undefined⟩).state ∧
      mapGet (registerWallet exampleEnv "t9"
          (registerWallet exampleEnv "t0" State.init
            ⟨.str addrScenario, .str "Ana", .undefined⟩).state
          ⟨.str (toLowerCase addrScenario), .str "Eva",
            .str "eva@example.org"⟩).state.customers (toLowerCase addrScenario) =
        some { name := jsOr (.str "Ana") (.str "Cliente")
               email := jsOr .undefined (.str "")
               purchaseCount := 0
               totalRewards := 0
               registeredAt := "t0"
               lastPurchase := none } :=
  ⟨(registerWallet_twice exampleEnv State.init "t0" "t9" addrScenario (toLowerCase addrScenario)
      (.str "Ana") .undefined (.str "Eva") (.str "eva@example.org")
      (by decide) (by decide)).1 (by decide),
    (registerWallet_twice exampleEnv State.init "t0" "t9" addrScenario (toLowerCase addrScenario)
      (.str "Ana") .undefined (.str "Eva") (.str "eva@example.org")
      (by decide) (by decide)).2.2⟩

/-- C3 as stated fails for a text `b` that has the lower-cased form of `a` but
does not pass the address validation: after the all-lower-case address is
registered, the same digits with letters of both cases, which the validator
refuses, get the 400 of an invalid address and not the 409. -/
theorem registerWallet_twice_invalid :
    (registerWallet exampleEnv "t0" State.init
        ⟨.str "0xabcdef0123456789abcdef0123456789abcdef01", .undefined,
          .undefined⟩).response.status = 200 ∧
      toLowerCase "0xAbCdEf0123456789aBcDeF0123456789abcdef01" =
        toLowerCase "0xabcdef0123456789abcdef0123456789abcdef01" ∧
      (registerWallet exampleEnv "t9"
        (registerWallet exampleEnv "t0" State.init
          ⟨.str "0xabcdef0123456789abcdef0123456789abcdef01", .undefined, .undefined⟩).state
        ⟨.str "0xAbCdEf0123456789aBcDeF0123456789abcdef01", .undefined, .undefined⟩).response =
        ⟨400, .error "Dirección de wallet inválida"⟩ := by
  decide

/-! ## Numbering of the log -/

theorem wellNumbered_pairwise (log : List Transaction) (h : WellNumbered log) :
    log.Pairwise (fun x y => x.id < y.id) := by
  rw [List.pairwise_iff_getElem]
  intro i j hi hj hij
  rw [h i hi, h j hj]
  omega

/-- C9: in every state reachable from the empty initial state by any sequence
of requests, the transaction at position i of the log (0-based) has id i+1, so
ids are 1-based, strictly increasing in append order and pairwise distinct. -/
theorem reachable_ids (env : Env) (s : State) (h : Reachable env s) :
    (∀ i (hi : i < s.transactions.length), s.transactions[i].id = i + 1) ∧
      (∀ i j (hi : i < s.transactions.length) (hj : j < s.transactions.length),
        i < j → s.transactions[i].id < s.transactions[j].id) ∧
      (s.transactions.map (fun tx => tx.id)).Nodup := by
  have hw := reachable_wellNumbered env s h
  refine ⟨hw, ?_, ?_⟩
  · intro i j hi hj hij
    rw [hw i hi, hw j hj]
    omega
  · rw [List.Nodup, List.pairwise_map]
    exact (wellNumbered_pairwise _ hw).imp (fun hlt => Nat.ne_of_lt hlt)

/-- An instance of C9: the state after one registration and one reward. -/
theorem reachable_ids_witness :
    (∀ i (hi : i < stateRewarded.transactions.length), stateRewarded.transactions[i].id = i + 1) ∧
      (∀ i j (hi : i < stateRewarded.transactions.length)
          (hj : j < stateRewarded.transactions.length),
        i < j → stateRewarded.transactions[i].id < stateRewarded.transactions[j].id) ∧
      (stateRewarded.transactions.map (fun tx => tx.id)).Nodup :=
  reachable_ids exampleEnv stateRewarded
    ⟨[.registerWallet "t0" ⟨.str addrScenario, .undefined, .undefined⟩,
      .sendReward "t1" "t2" chainOk ⟨.str addrScenario, .num 42, .undefined⟩], rfl⟩

/-! ## The recent transactions -/

theorem recentTransactions_of_pos (log : List Transaction) (N : Int) (hN : 1 ≤ N) :
    recentTransactions log (some N) = (log.drop (log.length - N.toNat)).reverse := by
  have h0 : ¬ N = 0 := by omega
  have h1 : -N < 0 := by omega
  have h2 : (-N).natAbs = N.toNat := by omega
  simp [recentTransactions, limitOrDefault, jsSlice, h0, h1, h2]

/-- C4, amended: for every log and every limit N of at least 1, the list
returned by GET /api/transactions has at most N entries, is the reverse of a
suffix of the log, has strictly decreasing ids when the log is numbered by
position, and is the whole log reversed when N exceeds the number of entries;
the response carries that list and the full count. A limit of 0 is replaced by
50. -/
theorem recentTransactions_limit (s : State) (N : Int) (hN : 1 ≤ N) :
    ((recentTransactions s.transactions (some N)).length : Int) ≤ N ∧
      (∃ older : List Transaction,
        s.transactions = older ++ (recentTransactions s.transactions (some N)).reverse) ∧
      (WellNumbered s.transactions →
        (recentTransactions s.transactions (some N)).Pairwise (fun x y => x.id > y.id)) ∧
      ((s.transactions.length : Int) < N →
        recentTransactions s.transactions (some N) = s.transactions.reverse) ∧
      (getTransactions s (some N)).response =
        ⟨200, .transactions s.transactions.length (recentTransactions s.transactions (some N))⟩ ∧
      (getTransactions s (some N)).state = s ∧
      limitOrDefault (some 0) = 50 := by
  rw [recentTransactions_of_pos _ N hN]
  refine ⟨?_, ?_, ?_, ?_, ?_, rfl, rfl⟩
  · simp only [List.length_reverse, List.length_drop]
    omega
  · exact ⟨s.transactions.take (s.transactions.length - N.toNat), by simp⟩
  · intro hw
    rw [List.pairwise_reverse]
    exact (wellNumbered_pairwise _ hw).sublist (List.drop_sublist _ _)
  · intro hlt
    have h : s.transactions.length - N.toNat = 0 := by omega
    rw [h, List.drop_zero]
  · simp only [getTransactions]
    rw [recentTransactions_of_pos _ N hN]

/-- An instance of C4 as amended: limit 1 on a log of one entry. -/
theorem recentTransactions_limit_witness :
    ((recentTransactions stateRewarded.transactions (some 1)).length : Int) ≤ 1 ∧
      (∃ older : List Transaction,
        stateRewarded.transactions =
          older ++ (recentTransactions stateRewarded.transactions (some 1)).reverse) ∧
      (WellNumbered stateRewarded.transactions →
        (recentTransactions stateRewarded.transactions (some 1)).Pairwise
          (fun x y => x.id > y.id)) ∧
      ((stateRewarded.transactions.length : Int) < 1 →
        recentTransactions stateRewarded.transactions (some 1) =
          stateRewarded.transactions.reverse) ∧
      (getTransactions stateRewarded (some 1)).response =
        ⟨200, .transactions stateRewarded.transactions.length
          (recentTransactions stateRewarded.transactions (some 1))⟩ ∧
      (getTransactions stateRewarded (some 1)).state = stateRewarded ∧
      limitOrDefault (some 0) = 50 :=
  recentTransactions_limit stateRewarded 1 (by decide)

/-- C4 as stated fails at limit 0: on the log of one entry reached by one
registration and one reward, `?limit=0` returns that entry, which is more than
0 entries. -/
theorem recentTransactions_limit_zero :
    (getTransactions stateRewarded (some 0)).response =
        ⟨200, .transactions 1 stateRewarded.transactions⟩ ∧
      stateRewarded.transactions.length = 1 ∧
      ¬ ((recentTransactions stateRewarded.transactions (some 0)).length : Int) ≤ 0 := by
  decide

/-! ## Address validation -/

theorem preg_match_wallet_iff (wallet : String) :
    preg_match_wallet wallet = true ↔
      IsHexAddress wallet ∨
        ∃ w : String, IsHexAddress w ∧ wallet = String.mk (w.data ++ [Char.ofNat 10]) := by
  constructor
  · intro h
    unfold preg_match_wallet at h
    split at h
    · rename_i rest hdata
      simp only [Bool.and_eq_true, Bool.or_eq_true, beq_iff_eq, List.all_eq_true] at h
      obtain ⟨⟨hlen, hall⟩, hend⟩ := h
      have hsplit : rest = rest.take 40 ++ rest.drop 40 := (List.take_append_drop 40 rest).symm
      rcases hend with hend | hend
      · left
        refine ⟨rest.take 40, hlen, hall, ?_⟩
        rw [hend, List.append_nil] at hsplit
        rw [← hsplit, ← hdata]
      · right
        refine ⟨String.mk ('0' :: 'x' :: rest.take 40), ⟨rest.take 40, hlen, hall, rfl⟩, ?_⟩
        rw [hend] at hsplit
        show wallet = String.mk ('0' :: 'x' :: (rest.take 40 ++ [Char.ofNat 10]))
        rw [← hsplit, ← hdata]
    · simp at h
  · rintro (⟨digits, hlen, hall, rfl⟩ | ⟨w, ⟨digits, hlen, hall, rfl⟩, rfl⟩)
    · have ht : digits.take 40 = digits := List.take_of_length_le (by omega)
      have hd : digits.drop 40 = [] := List.drop_of_length_le (by omega)
      simp only [preg_match_wallet, ht, hd, Bool.and_eq_true, Bool.or_eq_true, beq_iff_eq,
        List.all_eq_true]
      exact ⟨⟨hlen, hall⟩, Or.inl trivial⟩
    · have ht : (digits ++ [Char.ofNat 10]).take 40 = digits := by
        rw [List.take_append_of_le_length (by omega), List.take_of_length_le (by omega)]
      have hd : (digits ++ [Char.ofNat 10]).drop 40 = [Char.ofNat 10] := by
        rw [← hlen, List.drop_left]
      show preg_match_wallet (String.mk ('0' :: 'x' :: (digits ++ [Char.ofNat 10]))) = true
      simp only [preg_match_wallet, ht, hd, Bool.and_eq_true, Bool.or_eq_true, beq_iff_eq,
        List.all_eq_true]
      exact ⟨⟨hlen, hall⟩, Or.inr trivial⟩

theorem not_isHexAddress_empty : ¬ IsHexAddress "" := by
  rintro ⟨digits, _, _, h⟩
  have h2 := congrArg String.data h
  simp at h2

theorem registerWallet_status_400 (env : Env) (now : String) (s : State)
    (body : RegisterBody) :
    (registerWallet env now s body).response.status = 400 ↔
      ethersIsAddress env body.walletAddress = false := by
  obtain ⟨wa, name, email⟩ := body
  cases wa <;> try simp [registerWallet, ethersIsAddress, invalidAddress]
  rename_i w
  cases hv : env.isAddress w
  · simp [registerWallet, ethersIsAddress, invalidAddress, hv]
  · by_cases hh : mapHas s.customers (toLowerCase w) = true
    · simp [registerWallet, ethersIsAddress, alreadyRegistered, hv, hh]
    · simp [registerWallet, ethersIsAddress, hv, hh]

theorem sendReward_status_400 (env : Env) (nowPurchase nowLog : String) (chain : Chain)
    (s : State) (body : RewardBody) :
    (sendReward env nowPurchase nowLog chain s body).response.status = 400 ↔
      ethersIsAddress env body.walletAddress = false := by
  obtain ⟨wa, purchaseId, purchaseAmount⟩ := body
  cases wa
  case str w =>
    cases hv : env.isAddress w
    · simp [sendReward, ethersIsAddress, invalidAddress, hv]
    · cases hh : mapHas s.customers (toLowerCase w)
      · simp [sendReward, ethersIsAddress, notRegistered, hv, hh]
      · cases hd : chain.decimals with
        | error m => simp [sendReward, ethersIsAddress, sendRewardFailure, hv, hh, hd]
        | ok decimals =>
          cases hs : chain.symbol with
          | error m => simp [sendReward, ethersIsAddress, sendRewardFailure, hv, hh, hd, hs]
          | ok symbol =>
            cases hu : chain.parseUnits decimals with
            | error m =>
              simp [sendReward, ethersIsAddress, sendRewardFailure, hv, hh, hd, hs, hu]
            | ok wei =>
              cases ht : chain.transfer with
              | error m =>
                simp [sendReward, ethersIsAddress, sendRewardFailure, hv, hh, hd, hs, hu, ht]
              | ok hash =>
                cases hw : chain.wait with
                | error m =>
                  simp [sendReward, ethersIsAddress, sendRewardFailure, hv, hh, hd, hs, hu, ht,
                    hw]
                | ok receipt =>
                  simp [sendReward, ethersIsAddress, hv, hh, hd, hs, hu, ht, hw]
  all_goals simp [sendReward, ethersIsAddress, invalidAddress]

/-- C5, amended: register-wallet and send-reward apply no pattern of their own:
each answers the 400 of an invalid address exactly when `ethers.isAddress`
answers false on the walletAddress of the body. The check of the storefront
plugin raises no error when the sanitized field is empty or not posted (the
field is optional) or is `0x` followed by exactly 40 hexadecimal digits in any
letter case; and it raises its error on every other sanitized field, the field
`0` and such an address followed by a newline being left aside. -/
theorem address_validation (env : Env) (s : State) (now nowPurchase nowLog : String)
    (chain : Chain) (registerBody : RegisterBody) (rewardBody : RewardBody)
    (sanitize_text_field : String → String) (input : String) :
    ((registerWallet env now s registerBody).response.status = 400 ↔
        ethersIsAddress env registerBody.walletAddress = false) ∧
      ((sendReward env nowPurchase nowLog chain s rewardBody).response.status = 400 ↔
        ethersIsAddress env rewardBody.walletAddress = false) ∧
      (IsHexAddress (sanitize_text_field input) →
        ary_validate_wallet_field sanitize_text_field (some input) = false) ∧
      (sanitize_text_field input = "" →
        ary_validate_wallet_field sanitize_text_field (some input) = false) ∧
      ary_validate_wallet_field sanitize_text_field none = false ∧
      (sanitize_text_field input ≠ "" → sanitize_text_field input ≠ "0" →
        (∀ w : String, IsHexAddress w →
          sanitize_text_field input ≠ String.mk (w.data ++ [Char.ofNat 10])) →
        ¬ IsHexAddress (sanitize_text_field input) →
        ary_validate_wallet_field sanitize_text_field (some input) = true) := by
  refine ⟨registerWallet_status_400 env now s registerBody,
    sendReward_status_400 env nowPurchase nowLog chain s rewardBody, ?_, ?_, ?_, ?_⟩
  · intro h
    have hm := (preg_match_wallet_iff (sanitize_text_field input)).mpr (Or.inl h)
    simp [ary_validate_wallet_field, hm]
  · intro h
    simp [ary_validate_wallet_field, php_empty, h]
  · simp [ary_validate_wallet_field, php_empty]
  · intro h1 h2 h3 h4
    have hm : preg_match_wallet (sanitize_text_field input) = false := by
      cases hp : preg_match_wallet (sanitize_text_field input) with
      | false => rfl
      | true =>
        exfalso
        rcases (preg_match_wallet_iff (sanitize_text_field input)).mp hp with h | ⟨w, hw, h⟩
        · exact h4 h
        · exact h3 w hw h
    have he : php_empty (sanitize_text_field input) = false := by
      simp [php_empty, h1, h2]
    simp [ary_validate_wallet_field, hm, he]

/-- Instances of C5 as amended, with a sanitizer that changes nothing: the check
of the plugin raises no error on an all-upper-case and on a mixed-case address,
and raises one on a short one, a long one, one without the `0x` and one with a
letter that is not a hexadecimal digit. -/
theorem address_validation_witness :
    ary_validate_wallet_field (fun v => v) (some addrScenario) = false ∧
      ary_validate_wallet_field (fun v => v)
        (some "0xAbCdEf0123456789aBcDeF0123456789abcdef01") = false ∧
      ary_validate_wallet_field (fun v => v)
        (some "0xABCDEF0123456789ABCDEF0123456789ABCDEF0") = true ∧
      ary_validate_wallet_field (fun v => v)
        (some "0xABCDEF0123456789ABCDEF0123456789ABCDEF012") = true ∧
      ary_validate_wallet_field (fun v => v)
        (some "ABCDEF0123456789ABCDEF0123456789ABCDEF0123") = true ∧
      ary_validate_wallet_field (fun v => v)
        (some "0xABCDEF0123456789ABCDEF0123456789ABCDEFG1") = true ∧
      ((ary_validate_wallet_field (fun v => v) (some "0x123") = true) ∧
        (registerWallet exampleEnv "t0" State.init
          ⟨.str "0x123", .undefined, .undefined⟩).response.status = 400) :=
  ⟨by decide, by decide, by decide, by decide, by decide, by decide,
    (address_validation exampleEnv State.init "t0" "t1" "t2" chainOk
      ⟨.str "0x123", .undefined, .undefined⟩ ⟨.str "0x123", .undefined, .undefined⟩
      (fun v => v) "0x123").2.2.2.2.2 (by decide) (by decide)
      (fun w hw h => by
        obtain ⟨digits, hlen, _, h2⟩ := hw
        have h3 := congrArg String.length h
        simp [String.length, h2, hlen] at h3)
      (fun h => by
        obtain ⟨digits, hlen, _, h2⟩ := h
        have h3 := congrArg String.length h2
        simp [String.length, hlen] at h3),
    (address_validation exampleEnv State.init "t0" "t1" "t2" chainOk
      ⟨.str "0x123", .undefined, .undefined⟩ ⟨.str "0x123", .undefined, .undefined⟩
      (fun v => v) "0x123").1.mpr (by decide)⟩

theorem not_isHexAddress_bare :
    ¬ IsHexAddress "ABCDEF0123456789ABCDEF0123456789ABCDEF01" := by
  rintro ⟨digits, _, _, h⟩
  have h2 := congrArg String.data h
  simp at h2

theorem isHexAddress_mixed : IsHexAddress "0xAbCdEf0123456789aBcDeF0123456789abcdef01" :=
  ⟨"AbCdEf0123456789aBcDeF0123456789abcdef01".data, by decide, by decide, rfl⟩

/-- C5 as stated fails for the check of the plugin at the empty text: it is not
`0x` followed by 40 hexadecimal digits, and the check raises no error on it. It
fails for the two POST handlers as well, whose verdict is that of the validator
and not that of the pattern: with the validator of the examples, register-wallet
answers 200 to 40 hexadecimal digits without the `0x`, and 400 to `0x` followed
by 40 hexadecimal digits with letters of both cases. -/
theorem address_validation_fails :
    (¬ IsHexAddress "" ∧ ary_validate_wallet_field (fun v => v) (some "") = false) ∧
      (¬ IsHexAddress "ABCDEF0123456789ABCDEF0123456789ABCDEF01" ∧
        (registerWallet exampleEnv "t0" State.init
          ⟨.str "ABCDEF0123456789ABCDEF0123456789ABCDEF01", .undefined,
            .undefined⟩).response.status = 200) ∧
      (IsHexAddress "0xAbCdEf0123456789aBcDeF0123456789abcdef01" ∧
        (registerWallet exampleEnv "t0" State.init
          ⟨.str "0xAbCdEf0123456789aBcDeF0123456789abcdef01", .undefined,
            .undefined⟩).response.status = 400) :=
  ⟨⟨not_isHexAddress_empty, by decide⟩, ⟨not_isHexAddress_bare, by decide⟩,
    ⟨isHexAddress_mixed, by decide⟩⟩

/-! ## Failures of the chain -/

/-- C6: for every state and every send-reward request for a valid, registered
address on which the transfer submission fails, the response has status 500 and
carries the message mapped from the failure text, the submission was the last
chain call, and the registry and the log are unchanged; when the failure text is
`transfer amount exceeds balance` (or contains it and does not contain
`insufficient funds`) the error is the insufficient-token message. -/
theorem sendReward_transfer_fails (env : Env) (s : State) (nowPurchase nowLog : String)
    (chain : Chain) (w : String) (purchaseId purchaseAmount : JsValue)
    (decimals : Nat) (symbol message : String) (wei : Int)
    (hvalid : env.isAddress w = true)
    (hreg : mapHas s.customers (toLowerCase w) = true)
    (hd : chain.decimals = .ok decimals) (hs : chain.symbol = .ok symbol)
    (hunits : chain.parseUnits decimals = .ok wei)
    (ht : chain.transfer = .error message) :
    sendReward env nowPurchase nowLog chain s ⟨.str w, purchaseId, purchaseAmount⟩ =
        ⟨s, ⟨500, .error (sendRewardErrorMessage message)⟩,
          [.decimals, .symbol, .transfer w wei]⟩ ∧
      (message = "transfer amount exceeds balance" →
        sendRewardErrorMessage message =
          "La wallet del negocio no tiene suficientes ARY tokens") ∧
      (includes message "insufficient funds" = false →
        includes message "transfer amount exceeds balance" = true →
        sendRewardErrorMessage message =
          "La wallet del negocio no tiene suficientes ARY tokens") := by
  refine ⟨?_, ?_, ?_⟩
  · simp [sendReward, hvalid, hreg, hd, hs, hunits, ht, sendRewardFailure]
  · intro h
    subst h
    decide
  · intro h1 h2
    simp [sendRewardErrorMessage, h1, h2]

/-- An instance of C6: the registered address of the scenario, and a transfer
that reverts for lack of tokens. -/
theorem sendReward_transfer_fails_witness :
    sendReward exampleEnv "t1" "t2"
        { chainOk with transfer := .error "transfer amount exceeds balance" } stateRegistered
        ⟨.str addrScenario, .num 42, .undefined⟩ =
        ⟨stateRegistered, ⟨500, .error (sendRewardErrorMessage "transfer amount exceeds balance")⟩,
          [.decimals, .symbol, .transfer addrScenario 5000000000000000000]⟩ ∧
      ("transfer amount exceeds balance" = "transfer amount exceeds balance" →
        sendRewardErrorMessage "transfer amount exceeds balance" =
          "La wallet del negocio no tiene suficientes ARY tokens") ∧
      (includes "transfer amount exceeds balance" "insufficient funds" = false →
        includes "transfer amount exceeds balance" "transfer amount exceeds balance" = true →
        sendRewardErrorMessage "transfer amount exceeds balance" =
          "La wallet del negocio no tiene suficientes ARY tokens") :=
  sendReward_transfer_fails exampleEnv stateRegistered "t1" "t2"
    { chainOk with transfer := .error "transfer amount exceeds balance" } addrScenario
    (.num 42) .undefined 18 "ARY" "transfer amount exceeds balance" 5000000000000000000
    (by decide) (by decide) rfl rfl rfl rfl

/-- What send-reward does to the state, whatever the request: nothing, unless
both the transfer and the confirmation succeeded. -/
theorem sendReward_state_changed (env : Env) (s : State) (nowPurchase nowLog : String)
    (chain : Chain) (body : RewardBody)
    (h : (sendReward env nowPurchase nowLog chain s body).state ≠ s) :
    ∃ (hash : String) (receipt : Receipt),
      chain.transfer = .ok hash ∧ chain.wait = .ok receipt := by
  cases ht : chain.transfer with
  | error m =>
    exfalso
    apply h
    simp only [sendReward, ht]
    repeat' split
    all_goals rfl
  | ok hash =>
    cases hw : chain.wait with
    | error m =>
      exfalso
      apply h
      simp only [sendReward, hw]
      repeat' split
      all_goals rfl
    | ok receipt => exact ⟨_, _, rfl, rfl⟩

/-- C7: for every send-reward request for a valid, registered address whose
transfer is submitted and whose confirmation wait fails, the response is the
500 of the mapped failure text, no transaction is appended and the registry is
unchanged, so no purchaseCount, totalRewards or lastPurchase moves; and whatever
the request, send-reward changes the state only when both the transfer and the
confirmation succeeded. -/
theorem sendReward_wait_fails (env : Env) (s : State) (nowPurchase nowLog : String)
    (chain : Chain) (w : String) (purchaseId purchaseAmount : JsValue)
    (decimals : Nat) (symbol hash message : String) (wei : Int)
    (hvalid : env.isAddress w = true)
    (hreg : mapHas s.customers (toLowerCase w) = true)
    (hd : chain.decimals = .ok decimals) (hs : chain.symbol = .ok symbol)
    (hunits : chain.parseUnits decimals = .ok wei)
    (ht : chain.transfer = .ok hash) (hwait : chain.wait = .error message) :
    sendReward env nowPurchase nowLog chain s ⟨.str w, purchaseId, purchaseAmount⟩ =
        ⟨s, ⟨500, .error (sendRewardErrorMessage message)⟩,
          [.decimals, .symbol, .transfer w wei, .wait hash]⟩ ∧
      (sendReward env nowPurchase nowLog chain s
          ⟨.str w, purchaseId, purchaseAmount⟩).state.transactions = s.transactions ∧
      (∀ key : String,
        mapGet (sendReward env nowPurchase nowLog chain s
          ⟨.str w, purchaseId, purchaseAmount⟩).state.customers key = mapGet s.customers key) ∧
      (∀ (chain2 : Chain) (body2 : RewardBody),
        (sendReward env nowPurchase nowLog chain2 s body2).state ≠ s →
          ∃ (hash2 : String) (receipt2 : Receipt),
            chain2.transfer = .ok hash2 ∧ chain2.wait = .ok receipt2) := by
  have h : sendReward env nowPurchase nowLog chain s ⟨.str w, purchaseId, purchaseAmount⟩ =
      ⟨s, ⟨500, .error (sendRewardErrorMessage message)⟩,
        [.decimals, .symbol, .transfer w wei, .wait hash]⟩ := by
    simp [sendReward, hvalid, hreg, hd, hs, hunits, ht, hwait, sendRewardFailure]
  refine ⟨h, ?_, ?_, ?_⟩
  · rw [h]
  · intro key
    rw [h]
  · intro chain2 body2 hne
    exact sendReward_state_changed env s nowPurchase nowLog chain2 body2 hne

/-- An instance of C7: the registered address of the scenario, a transfer that
is submitted and a confirmation wait that times out. -/
theorem sendReward_wait_fails_witness :
    sendReward exampleEnv "t1" "t2" { chainOk with wait := .error "timeout" } stateRegistered
        ⟨.str addrScenario, .num 42, .undefined⟩ =
        ⟨stateRegistered, ⟨500, .error (sendRewardErrorMessage "timeout")⟩,
          [.decimals, .symbol, .transfer addrScenario 5000000000000000000, .wait "0xaa"]⟩ ∧
      (sendReward exampleEnv "t1" "t2" { chainOk with wait := .error "timeout" } stateRegistered
          ⟨.str addrScenario, .num 42, .undefined⟩).state.transactions =
        stateRegistered.transactions ∧
      (∀ key : String,
        mapGet (sendReward exampleEnv "t1" "t2" { chainOk with wait := .error "timeout" }
          stateRegistered ⟨.str addrScenario, .num 42, .undefined⟩).state.customers key =
          mapGet stateRegistered.customers key) ∧
      (∀ (chain2 : Chain) (body2 : RewardBody),
        (sendReward exampleEnv "t1" "t2" chain2 stateRegistered body2).state ≠ stateRegistered →
          ∃ (hash2 : String) (receipt2 : Receipt),
            chain2.transfer = .ok hash2 ∧ chain2.wait = .ok receipt2) :=
  sendReward_wait_fails exampleEnv stateRegistered "t1" "t2"
    { chainOk with wait := .error "timeout" } addrScenario (.num 42) .undefined 18 "ARY" "0xaa"
    "timeout" 5000000000000000000 (by decide) (by decide) rfl rfl rfl rfl rfl

/-! ## The error mapping -/

theorem includesChars_iff (sub s : List Char) :
    includesChars sub s = true ↔ sub <:+: s := by
  induction s with
  | nil =>
    cases sub with
    | nil => simp [includesChars]
    | cons c cs => simp [includesChars]
  | cons c cs ih =>
    rw [includesChars, Bool.or_eq_true, ih, List.isPrefixOf_iff_prefix, List.infix_cons_iff]

/-- The method `includes` answers whether the text occurs as a run of
consecutive characters. -/
theorem includes_iff (s sub : String) :
    includes s sub = true ↔ ∃ before after : List Char, s.data = before ++ sub.data ++ after := by
  rw [includes, includesChars_iff]
  constructor
  · rintro ⟨before, after, h⟩
    exact ⟨before, after, h.symm⟩
  · rintro ⟨before, after, h⟩
    exact ⟨before, after, h.symm⟩

/-- C8, amended: the patterns are tried in the order `insufficient funds`,
`transfer amount exceeds balance`, `nonce`, and the first one the raw message
contains decides: the insufficient-gas message for the first, the
insufficient-token message for the second when the first is absent, the retry
advice for the third when the first two are absent, and the raw message itself,
unchanged, when it contains none; the status of the response is 500 in every
case. -/
theorem sendRewardErrorMessage_cases (message : String) :
    (includes message "insufficient funds" = true →
      sendRewardErrorMessage message =
        "La wallet del negocio no tiene suficiente ETH para pagar el gas") ∧
    (includes message "insufficient funds" = false →
      includes message "transfer amount exceeds balance" = true →
      sendRewardErrorMessage message =
        "La wallet del negocio no tiene suficientes ARY tokens") ∧
    (includes message "insufficient funds" = false →
      includes message "transfer amount exceeds balance" = false →
      includes message "nonce" = true →
      sendRewardErrorMessage message =
        "Error de sincronización. Por favor intenta de nuevo.") ∧
    (includes message "insufficient funds" = false →
      includes message "transfer amount exceeds balance" = false →
      includes message "nonce" = false →
      sendRewardErrorMessage message = message) ∧
    sendRewardFailure message = ⟨500, .error (sendRewardErrorMessage message)⟩ := by
  refine ⟨?_, ?_, ?_, ?_, rfl⟩
  · intro h1
    simp [sendRewardErrorMessage, h1]
  · intro h1 h2
    simp [sendRewardErrorMessage, h1, h2]
  · intro h1 h2 h3
    simp [sendRewardErrorMessage, h1, h2, h3]
  · intro h1 h2 h3
    simp [sendRewardErrorMessage, h1, h2, h3]

/-- Instances of C8 as amended: one message for each of the four outcomes. -/
theorem sendRewardErrorMessage_cases_witness :
    sendRewardErrorMessage "insufficient funds for gas * price + value" =
        "La wallet del negocio no tiene suficiente ETH para pagar el gas" ∧
      sendRewardErrorMessage "execution reverted: ERC20: transfer amount exceeds balance" =
        "La wallet del negocio no tiene suficientes ARY tokens" ∧
      sendRewardErrorMessage "nonce too low" =
        "Error de sincronización. Por favor intenta de nuevo." ∧
      sendRewardErrorMessage "could not detect network" = "could not detect network" :=
  ⟨(sendRewardErrorMessage_cases "insufficient funds for gas * price + value").1 (by decide),
    (sendRewardErrorMessage_cases
      "execution reverted: ERC20: transfer amount exceeds balance").2.1 (by decide) (by decide),
    (sendRewardErrorMessage_cases "nonce too low").2.2.1 (by decide) (by decide) (by decide),
    (sendRewardErrorMessage_cases "could not detect network").2.2.2.1
      (by decide) (by decide) (by decide)⟩

/-- C8 as stated fails on a message that contains two of the patterns: this one
contains `nonce` and `transfer amount exceeds balance`, and the result is
neither the retry advice nor the insufficient-token message but the
insufficient-gas message, because it also contains `insufficient funds`. -/
theorem sendRewardErrorMessage_overlap :
    includes "insufficient funds, nonce 7: transfer amount exceeds balance" "nonce" = true ∧
      includes "insufficient funds, nonce 7: transfer amount exceeds balance"
        "transfer amount exceeds balance" = true ∧
      sendRewardErrorMessage "insufficient funds, nonce 7: transfer amount exceeds balance" ≠
        "Error de sincronización. Por favor intenta de nuevo." ∧
      sendRewardErrorMessage "insufficient funds, nonce 7: transfer amount exceeds balance" ≠
        "La wallet del negocio no tiene suficientes ARY tokens" := by
  decide

/-- The mapping of `quick-server.js` has no case for `nonce`: such a message
passes through unchanged, and the two messages it does produce are its own. -/
theorem quickRewardErrorMessage_cases (message : String) :
    (includes message "insufficient funds" = true →
      quickRewardErrorMessage message = "Sin suficiente ETH para gas") ∧
    (includes message "insufficient funds" = false →
      includes message "transfer amount exceeds balance" = true →
      quickRewardErrorMessage message = "Sin suficientes ARY tokens") ∧
    (includes message "insufficient funds" = false →
      includes message "transfer amount exceeds balance" = false →
      quickRewardErrorMessage message = message) := by
  refine ⟨?_, ?_, ?_⟩
  · intro h1
    simp [quickRewardErrorMessage, h1]
  · intro h1 h2
    simp [quickRewardErrorMessage, h1, h2]
  · intro h1 h2
    simp [quickRewardErrorMessage, h1, h2]

/-! ## Invalid addresses -/

/-- C10: for every state and every body whose walletAddress fails the address
validation, an absent walletAddress included, both register-wallet and
send-reward answer 400 with the invalid-address message, make no chain call and
leave the registry and the log unchanged. -/
theorem invalid_address_rejected (env : Env) (s : State) (now nowPurchase nowLog : String)
    (chain : Chain) (registerBody : RegisterBody) (rewardBody : RewardBody)
    (hregister : ethersIsAddress env registerBody.walletAddress = false)
    (hreward : ethersIsAddress env rewardBody.walletAddress = false) :
    registerWallet env now s registerBody =
        ⟨s, ⟨400, .error "Dirección de wallet inválida"⟩, []⟩ ∧
      sendReward env nowPurchase nowLog chain s rewardBody =
        ⟨s, ⟨400, .error "Dirección de wallet inválida"⟩, []⟩ ∧
      ethersIsAddress env .undefined = false := by
  obtain ⟨wa1, name, email⟩ := registerBody
  obtain ⟨wa2, purchaseId, purchaseAmount⟩ := rewardBody
  refine ⟨?_, ?_, rfl⟩
  · cases wa1 <;> simp_all [registerWallet, ethersIsAddress, invalidAddress]
  · cases wa2 <;> simp_all [sendReward, ethersIsAddress, invalidAddress]

/-- Instances of C10: a register-wallet body without walletAddress and a
send-reward body whose walletAddress is too short, in a state with one
customer. -/
theorem invalid_address_rejected_witness :
    registerWallet exampleEnv "t5" stateRegistered ⟨.undefined, .str "Ana", .undefined⟩ =
        ⟨stateRegistered, ⟨400, .error "Dirección de wallet inválida"⟩, []⟩ ∧
      sendReward exampleEnv "t6" "t7" chainOk stateRegistered ⟨.str "0x123", .num 42, .null⟩ =
        ⟨stateRegistered, ⟨400, .error "Dirección de wallet inválida"⟩, []⟩ ∧
      ethersIsAddress exampleEnv .undefined = false :=
  invalid_address_rejected exampleEnv stateRegistered "t5" "t6" "t7" chainOk
    ⟨.undefined, .str "Ana", .undefined⟩ ⟨.str "0x123", .num 42, .null⟩ rfl (by decide)

/-! ## The log only grows at its end -/

/-- C11: for every operation of the server and every state, the log before the
operation is a prefix of the log after it: what follows the old entries is at
most one new entry, so nothing already appended is removed, reordered or
modified; and the read operations leave the whole state as it was. -/
theorem handle_log_append_only (env : Env) (s : State) (r : Request) :
    (∃ added : List Transaction,
      (handle env s r).state.transactions = s.transactions ++ added ∧ added.length ≤ 1) ∧
    (∀ i (hi : i < s.transactions.length),
      (handle env s r).state.transactions[i]? = some s.transactions[i]) ∧
    s.transactions.length ≤ (handle env s r).state.transactions.length ∧
    (handle env s r).state.transactions.length ≤ s.transactions.length + 1 ∧
    (∀ read : Except String Balances, (handle env s (.businessBalance read)).state = s) ∧
    (∀ param : String, (handle env s (.customer param)).state = s) ∧
    (∀ parsed : Option Int, (handle env s (.transactions parsed)).state = s) ∧
    (∀ now : String, (handle env s (.health now)).state = s) := by
  have key : ∃ added : List Transaction,
      (handle env s r).state.transactions = s.transactions ++ added ∧ added.length ≤ 1 := by
    rcases handle_transactions env s r with h | ⟨tx, _, h⟩
    · exact ⟨[], by simp [h], by simp⟩
    · exact ⟨[tx], h, by simp⟩
  obtain ⟨added, hadd, hlen⟩ := key
  refine ⟨⟨added, hadd, hlen⟩, ?_, ?_, ?_, ?_, ?_, ?_, ?_⟩
  · intro i hi
    rw [hadd, List.getElem?_append_left hi, List.getElem?_eq_getElem hi]
  · rw [hadd, List.length_append]
    omega
  · rw [hadd, List.length_append]
    omega
  · intro read
    simp only [handle, businessBalance]
    split <;> rfl
  · intro param
    simp only [handle, getCustomer]
    split <;> rfl
  · intro parsed
    rfl
  · intro now
    rfl

/-! ## The transactions of one customer -/

/-- C12: for every state and every path address whose lower-cased form is a
registered key, GET /api/customer/:walletAddress answers 200 with the record and
with exactly the log entries whose recipient lower-cases to that key, in log
order (a sublist of the log holding an entry exactly when the log holds it with
such a recipient, as many times as the log does); for an address whose
lower-cased form is not registered it answers 404. -/
theorem getCustomer_transactions (s : State) (param : String) :
    (∀ c : Customer, mapGet s.customers (toLowerCase param) = some c →
      ∃ listed : List Transaction,
        (getCustomer s param).response = ⟨200, .customer (toLowerCase param) c listed⟩ ∧
        listed.Sublist s.transactions ∧
        (∀ tx : Transaction, tx ∈ listed ↔
          tx ∈ s.transactions ∧ toLowerCase tx.recipient = toLowerCase param) ∧
        (∀ tx : Transaction, toLowerCase tx.recipient = toLowerCase param →
          listed.count tx = s.transactions.count tx)) ∧
    (mapHas s.customers (toLowerCase param) = false →
      (getCustomer s param).response = ⟨404, .error "Cliente no encontrado"⟩) ∧
    (getCustomer s param).state = s ∧
    (getCustomer s param).calls = [] := by
  refine ⟨?_, ?_, ?_, ?_⟩
  · intro c hc
    refine ⟨s.transactions.filter (fun tx => toLowerCase tx.recipient == toLowerCase param),
      ?_, List.filter_sublist _, ?_, ?_⟩
    · simp [getCustomer, hc]
    · intro tx
      simp [List.mem_filter]
    · intro tx htx
      rw [List.count_filter]
      simp [htx]
  · intro h
    rw [mapHas_eq_isSome] at h
    have hnone : mapGet s.customers (toLowerCase param) = none := by
      cases hg : mapGet s.customers (toLowerCase param) with
      | none => rfl
      | some c => simp [hg] at h
    simp [getCustomer, hnone]
  · simp only [getCustomer]
    split <;> rfl
  · simp only [getCustomer]
    split <;> rfl

/-- An instance of C12: the customer of the scenario asked for in lower case and
in upper case, after one reward, and an address that was never registered. -/
theorem getCustomer_transactions_witness :
    (getCustomer stateTwoCustomers (toLowerCase addrScenario)).response =
        ⟨200, .customer (toLowerCase addrScenario)
          ⟨.str "Cliente", .str "", 1, 5, "t0", some "t1"⟩ stateTwoCustomers.transactions⟩ ∧
      (getCustomer stateTwoCustomers addrScenario).response =
        ⟨200, .customer (toLowerCase addrScenario)
          ⟨.str "Cliente", .str "", 1, 5, "t0", some "t1"⟩ stateTwoCustomers.transactions⟩ ∧
      (getCustomer stateTwoCustomers "0x1111111111111111111111111111111111111111").response =
        ⟨200, .customer "0x1111111111111111111111111111111111111111"
          ⟨.str "Eva", .str "", 0, 0, "t3", none⟩ []⟩ ∧
      (getCustomer stateTwoCustomers "0x2222222222222222222222222222222222222222").response =
        ⟨404, .error "Cliente no encontrado"⟩ ∧
      ∃ listed : List Transaction,
        (getCustomer stateTwoCustomers addrScenario).response =
          ⟨200, .customer (toLowerCase addrScenario)
            ⟨.str "Cliente", .str "", 1, 5, "t0", some "t1"⟩ listed⟩ ∧
        listed.Sublist stateTwoCustomers.transactions ∧
        (∀ tx : Transaction, tx ∈ listed ↔
          tx ∈ stateTwoCustomers.transactions ∧
            toLowerCase tx.recipient = toLowerCase addrScenario) ∧
        (∀ tx : Transaction, toLowerCase tx.recipient = toLowerCase addrScenario →
          listed.count tx = stateTwoCustomers.transactions.count tx) :=
  ⟨by decide, by decide, by decide, by decide,
    (getCustomer_transactions stateTwoCustomers addrScenario).1
      ⟨.str "Cliente", .str "", 1, 5, "t0", some "t1"⟩ (by decide)⟩

/-! ## What a successful reward changes in the registry -/

/-- C13: a successful send-reward for address `a` changes, in the registry, only
the purchaseCount, totalRewards and lastPurchase of the record stored under the
lower-cased `a`: its name, email and registeredAt are as before, the record
under every other key is as before, and the keys are the same, in the same
order. -/
theorem sendReward_frame (env : Env) (s : State) (nowPurchase nowLog : String)
    (chain : Chain) (w : String) (purchaseId purchaseAmount : JsValue) (c : Customer)
    (decimals : Nat) (symbol hash : String) (wei : Int) (receipt : Receipt)
    (hvalid : env.isAddress w = true)
    (hreg : mapGet s.customers (toLowerCase w) = some c)
    (hd : chain.decimals = .ok decimals) (hs : chain.symbol = .ok symbol)
    (hunits : chain.parseUnits decimals = .ok wei)
    (ht : chain.transfer = .ok hash) (hwait : chain.wait = .ok receipt) :
    mapGet (sendReward env nowPurchase nowLog chain s
        ⟨.str w, purchaseId, purchaseAmount⟩).state.customers (toLowerCase w) =
        some { name := c.name
               email := c.email
               purchaseCount := c.purchaseCount + 1
               totalRewards := Double.add c.totalRewards (parseFloat env.REWARD_AMOUNT)
               registeredAt := c.registeredAt
               lastPurchase := some nowPurchase } ∧
      (∀ other : String, other ≠ toLowerCase w →
        mapGet (sendReward env nowPurchase nowLog chain s
          ⟨.str w, purchaseId, purchaseAmount⟩).state.customers other =
          mapGet s.customers other) ∧
      (sendReward env nowPurchase nowLog chain s
          ⟨.str w, purchaseId, purchaseAmount⟩).state.customers.map Prod.fst =
        s.customers.map Prod.fst := by
  rw [sendReward_confirmed env s nowPurchase nowLog chain w purchaseId purchaseAmount c decimals
    symbol hash wei receipt hvalid hreg hd hs hunits ht hwait]
  refine ⟨?_, ?_, ?_⟩
  · show mapGet (mapModify s.customers (toLowerCase w) (recordPurchase env nowPurchase))
      (toLowerCase w) = _
    rw [mapGet_mapModify_self, hreg]
    rfl
  · intro other hne
    exact mapGet_mapModify_ne _ _ _ _ hne
  · exact map_fst_mapModify _ _ _

/-- An instance of C13: the customer of the scenario rewarded in a state with
two customers. -/
theorem sendReward_frame_witness :
    mapGet (sendReward exampleEnv "t4" "t5" chainOk stateTwoCustomers
        ⟨.str addrScenario, .num 43, .undefined⟩).state.customers (toLowerCase addrScenario) =
        some { name := .str "Cliente"
               email := .str ""
               purchaseCount := 1 + 1
               totalRewards := Double.add 5 (parseFloat exampleEnv.REWARD_AMOUNT)
               registeredAt := "t0"
               lastPurchase := some "t4" } ∧
      (∀ other : String, other ≠ toLowerCase addrScenario →
        mapGet (sendReward exampleEnv "t4" "t5" chainOk stateTwoCustomers
          ⟨.str addrScenario, .num 43, .undefined⟩).state.customers other =
          mapGet stateTwoCustomers.customers other) ∧
      (sendReward exampleEnv "t4" "t5" chainOk stateTwoCustomers
          ⟨.str addrScenario, .num 43, .undefined⟩).state.customers.map Prod.fst =
        stateTwoCustomers.customers.map Prod.fst :=
  sendReward_frame exampleEnv stateTwoCustomers "t4" "t5" chainOk addrScenario (.num 43)
    .undefined ⟨.str "Cliente", .str "", 1, 5, "t0", some "t1"⟩ 18 "ARY" "0xaa"
    5000000000000000000 ⟨7, "52000"⟩ (by decide) (by decide) rfl rfl rfl rfl rfl

/-! ## The correlation fields -/

/-- C14, amended: for every successful send-reward request the transaction that
is appended and returned carries `purchaseId || null` and
`purchaseAmount || null`: the value of the caller, unchanged, when it is truthy,
and null when the field is absent or its value is falsy (0, the empty text,
false or null). -/
theorem sendReward_correlation (env : Env) (s : State) (nowPurchase nowLog : String)
    (chain : Chain) (w : String) (purchaseId purchaseAmount : JsValue) (c : Customer)
    (decimals : Nat) (symbol hash : String) (wei : Int) (receipt : Receipt)
    (hvalid : env.isAddress w = true)
    (hreg : mapGet s.customers (toLowerCase w) = some c)
    (hd : chain.decimals = .ok decimals) (hs : chain.symbol = .ok symbol)
    (hunits : chain.parseUnits decimals = .ok wei)
    (ht : chain.transfer = .ok hash) (hwait : chain.wait = .ok receipt) :
    ∃ (tx : Transaction) (message : String) (reward : Reward) (stats : CustomerStats),
      (sendReward env nowPurchase nowLog chain s
          ⟨.str w, purchaseId, purchaseAmount⟩).state.transactions = s.transactions ++ [tx] ∧
      (sendReward env nowPurchase nowLog chain s
          ⟨.str w, purchaseId, purchaseAmount⟩).response =
        ⟨200, .rewardSent message reward tx stats⟩ ∧
      (purchaseId.truthy = true → tx.purchaseId = purchaseId) ∧
      (purchaseId.truthy = false → tx.purchaseId = .null) ∧
      (purchaseAmount.truthy = true → tx.purchaseAmount = purchaseAmount) ∧
      (purchaseAmount.truthy = false → tx.purchaseAmount = .null) ∧
      JsValue.undefined.truthy = false := by
  rw [sendReward_confirmed env s nowPurchase nowLog chain w purchaseId purchaseAmount c decimals
    symbol hash wei receipt hvalid hreg hd hs hunits ht hwait]
  refine ⟨_, _, _, _, rfl, rfl, ?_, ?_, ?_, ?_, rfl⟩
  · intro h
    simp [jsOr, h]
  · intro h
    simp [jsOr, h]
  · intro h
    simp [jsOr, h]
  · intro h
    simp [jsOr, h]

/-- An instance of C14 as amended: order 42 with an amount given as text, and
the recorded fields. -/
theorem sendReward_correlation_witness :
    (sendReward exampleEnv "t1" "t2" chainOk stateRegistered
        ⟨.str addrScenario, .num 42, .str "25.00"⟩).state.transactions.map
        (fun tx => (tx.purchaseId, tx.purchaseAmount)) = [(.num 42, .str "25.00")] ∧
      ∃ (tx : Transaction) (message : String) (reward : Reward) (stats : CustomerStats),
        (sendReward exampleEnv "t1" "t2" chainOk stateRegistered
            ⟨.str addrScenario, .num 42, .str "25.00"⟩).state.transactions =
          stateRegistered.transactions ++ [tx] ∧
        (sendReward exampleEnv "t1" "t2" chainOk stateRegistered
            ⟨.str addrScenario, .num 42, .str "25.00"⟩).response =
          ⟨200, .rewardSent message reward tx stats⟩ ∧
        ((JsValue.num 42).truthy = true → tx.purchaseId = .num 42) ∧
        ((JsValue.num 42).truthy = false → tx.purchaseId = .null) ∧
        ((JsValue.str "25.00").truthy = true → tx.purchaseAmount = .str "25.00") ∧
        ((JsValue.str "25.00").truthy = false → tx.purchaseAmount = .null) ∧
        JsValue.undefined.truthy = false :=
  ⟨by decide,
    sendReward_correlation exampleEnv stateRegistered "t1" "t2" chainOk addrScenario (.num 42)
      (.str "25.00") ⟨.str "Cliente", .str "", 0, 0, "t0", none⟩ 18 "ARY" "0xaa"
      5000000000000000000 ⟨7, "52000"⟩ (by decide) (by decide) rfl rfl rfl rfl rfl⟩

/-- C14 as stated fails on supplied values that are falsy: a successful reward
sent with purchaseId 0 and purchaseAmount 0 records null for both. -/
theorem sendReward_correlation_zero :
    (sendReward exampleEnv "t1" "t2" chainOk stateRegistered
        ⟨.str addrScenario, .num 0, .num 0⟩).response.status = 200 ∧
      (sendReward exampleEnv "t1" "t2" chainOk stateRegistered
        ⟨.str addrScenario, .num 0, .num 0⟩).state.transactions.map
        (fun tx => (tx.purchaseId, tx.purchaseAmount)) = [(.null, .null)] := by
  decide

/-! ## The default limit -/

/-- C16: when `parseInt` of the limit parameter is `NaN` (the parameter is
absent or does not parse as a number) the limit used is 50: the response holds
the last 50 entries of the log, most recent first, which is the whole log
reversed when it has at most 50 entries; and `total` is the full log length,
with or without a limit. -/
theorem getTransactions_default (s : State) :
    limitOrDefault none = 50 ∧
      (getTransactions s none).response =
        ⟨200, .transactions s.transactions.length
          (s.transactions.drop (s.transactions.length - 50)).reverse⟩ ∧
      ((s.transactions.drop (s.transactions.length - 50)).reverse).length =
        min 50 s.transactions.length ∧
      (s.transactions.length ≤ 50 →
        (getTransactions s none).response =
          ⟨200, .transactions s.transactions.length s.transactions.reverse⟩) ∧
      (∀ parsed : Option Int, ∃ listed : List Transaction,
        (getTransactions s parsed).response =
          ⟨200, .transactions s.transactions.length listed⟩) ∧
      (getTransactions s none).state = s := by
  have h : recentTransactions s.transactions none =
      (s.transactions.drop (s.transactions.length - 50)).reverse := by
    simp [recentTransactions, limitOrDefault, jsSlice]
  refine ⟨rfl, ?_, ?_, ?_, ?_, rfl⟩
  · simp only [getTransactions, h]
  · simp only [List.length_reverse, List.length_drop]
    omega
  · intro hle
    have h0 : s.transactions.length - 50 = 0 := by omega
    simp only [getTransactions, h, h0, List.drop_zero]
  · intro parsed
    exact ⟨_, rfl⟩

/-- An instance of C16: the log of one entry, asked for without a limit. -/
theorem getTransactions_default_witness :
    (getTransactions stateRewarded none).response =
      ⟨200, .transactions 1 stateRewarded.transactions.reverse⟩ :=
  (getTransactions_default stateRewarded).2.2.2.1 (by decide)

/-! ## New registrations -/

theorem mapSet_of_not_has (m : List (String × Customer)) (key : String) (value : Customer)
    (h : mapHas m key = false) : mapSet m key value = m ++ [(key, value)] := by
  induction m with
  | nil => rfl
  | cons e rest ih =>
    have h2 : (e.1 == key) = false ∧ mapHas rest key = false := by
      simpa [mapHas, List.any_cons, Bool.or_eq_false_iff] using h
    simp [mapSet, h2.1, ih h2.2]

theorem hexDigit_range (c : Char) (h : isHexDigit c = true) :
    (48 ≤ c.toNat ∧ c.toNat ≤ 57) ∨ (97 ≤ c.toNat ∧ c.toNat ≤ 102) ∨
      (65 ≤ c.toNat ∧ c.toNat ≤ 70) := by
  simp only [isHexDigit, Bool.or_eq_true, Bool.and_eq_true, decide_eq_true_eq, Char.le_def,
    UInt32.le_def, BitVec.le_def] at h
  have e0 : '0'.val.toBitVec.toNat = 48 := rfl
  have e9 : '9'.val.toBitVec.toNat = 57 := rfl
  have ea : 'a'.val.toBitVec.toNat = 97 := rfl
  have ef : 'f'.val.toBitVec.toNat = 102 := rfl
  have eA : 'A'.val.toBitVec.toNat = 65 := rfl
  have eF : 'F'.val.toBitVec.toNat = 70 := rfl
  rw [e0, e9, ea, ef, eA, eF] at h
  have hn : c.toNat = c.val.toBitVec.toNat := rfl
  rw [hn]
  rcases h with (h | h) | h
  · left; exact h
  · right; left; exact h
  · right; right; exact h

theorem isHexDigit_toLower (c : Char) (h : isHexDigit c = true) :
    isLowerHexDigit c.toLower = true := by
  have hc : c = Char.ofNat c.toNat := (Char.ofNat_toNat c).symm
  rcases hexDigit_range c h with ⟨h1, h2⟩ | ⟨h1, h2⟩ | ⟨h1, h2⟩
  all_goals
    rw [hc]
    generalize c.toNat = n at h1 h2
    interval_cases n <;> decide

theorem toLowerCase_hexAddress (w : String) (h : IsHexAddress w) :
    IsLowerHexAddress (toLowerCase w) ∧ (toLowerCase w).length = 42 := by
  obtain ⟨digits, hlen, hall, rfl⟩ := h
  constructor
  · refine ⟨digits.map Char.toLower, by simp [hlen], ?_, ?_⟩
    · intro c hc
      obtain ⟨d, hd, rfl⟩ := List.mem_map.mp hc
      exact isHexDigit_toLower d (hall d hd)
    · show String.mk (List.map Char.toLower ('0' :: 'x' :: digits)) = _
      rw [List.map_cons, List.map_cons]
      have h0 : Char.toLower '0' = '0' := by decide
      have hx : Char.toLower 'x' = 'x' := by decide
      rw [h0, hx]
  · show (List.map Char.toLower ('0' :: 'x' :: digits)).length = 42
    simp [hlen]

/-- C15, amended: for every valid address whose lower-cased form is not yet
registered, register-wallet answers 200, echoes the address as supplied, and
adds exactly one record, at the end of the registry, keyed by the lower-cased
address, with purchaseCount 0, totalRewards 0 and the clock reading; its name is
the supplied name when that is truthy and 'Cliente' when it is absent or falsy,
its email the supplied email when truthy and '' otherwise; all other records and
the transaction log are unchanged and no chain call is made. When the address is
`0x` followed by 40 hexadecimal digits the key is `0x` followed by 40 lower-case
hexadecimal digits, 42 characters in all. -/
theorem registerWallet_new (env : Env) (s : State) (now : String) (w : String)
    (name email : JsValue)
    (hvalid : env.isAddress w = true)
    (hfresh : mapHas s.customers (toLowerCase w) = false) :
    registerWallet env now s ⟨.str w, name, email⟩ =
        ⟨{ customers := s.customers ++
             [(toLowerCase w,
               { name := jsOr name (.str "Cliente")
                 email := jsOr email (.str "")
                 purchaseCount := 0
                 totalRewards := 0
                 registeredAt := now
                 lastPurchase := none })]
           transactions := s.transactions },
         ⟨200, .registered "Wallet registrada exitosamente" w⟩, []⟩ ∧
      (name.truthy = true → jsOr name (.str "Cliente") = name) ∧
      (name.truthy = false → jsOr name (.str "Cliente") = .str "Cliente") ∧
      (email.truthy = true → jsOr email (.str "") = email) ∧
      (email.truthy = false → jsOr email (.str "") = .str "") ∧
      (∀ other : String, other ≠ toLowerCase w →
        mapGet (registerWallet env now s ⟨.str w, name, email⟩).state.customers other =
          mapGet s.customers other) ∧
      (IsHexAddress w → IsLowerHexAddress (toLowerCase w) ∧ (toLowerCase w).length = 42) := by
  have hout : registerWallet env now s ⟨.str w, name, email⟩ =
      ⟨{ customers := mapSet s.customers (toLowerCase w)
           { name := jsOr name (.str "Cliente")
             email := jsOr email (.str "")
             purchaseCount := 0
             totalRewards := 0
             registeredAt := now
             lastPurchase := none }
         transactions := s.transactions },
       ⟨200, .registered "Wallet registrada exitosamente" w⟩, []⟩ := by
    simp [registerWallet, hvalid, hfresh]
  refine ⟨?_, ?_, ?_, ?_, ?_, ?_, toLowerCase_hexAddress w⟩
  · rw [hout, mapSet_of_not_has _ _ _ hfresh]
  · intro h
    simp [jsOr, h]
  · intro h
    simp [jsOr, h]
  · intro h
    simp [jsOr, h]
  · intro h
    simp [jsOr, h]
  · intro other hne
    rw [hout]
    exact mapGet_mapSet_ne _ _ _ _ hne

/-- An instance of C15 as amended: a second customer, registered in upper case
with a name and no email. -/
theorem registerWallet_new_witness :
    registerWallet exampleEnv "t3" stateRewarded
        ⟨.str "0xAAAAAAAAAAAAAAAAAAAAAAAAAAAAAAAAAAAAAAAA", .str "Eva", .undefined⟩ =
        ⟨{ customers := stateRewarded.customers ++
             [("0xaaaaaaaaaaaaaaaaaaaaaaaaaaaaaaaaaaaaaaaa",
               { name := .str "Eva"
                 email := .str ""
                 purchaseCount := 0
                 totalRewards := 0
                 registeredAt := "t3"
                 lastPurchase := none })]
           transactions := stateRewarded.transactions },
         ⟨200, .registered "Wallet registrada exitosamente"
           "0xAAAAAAAAAAAAAAAAAAAAAAAAAAAAAAAAAAAAAAAA"⟩, []⟩ :=
  (registerWallet_new exampleEnv stateRewarded "t3" "0xAAAAAAAAAAAAAAAAAAAAAAAAAAAAAAAAAAAAAAAA"
    (.str "Eva") .undefined (by decide) (by decide)).1

/-- C15 as stated fails in two places. A supplied name that is falsy is not
stored: registering with the empty text as name succeeds and stores 'Cliente'.
And the key is not always 42 characters long: 40 hexadecimal digits without the
`0x`, which the validator accepts, are registered under a key of 40
characters. -/
theorem registerWallet_name_and_key :
    (registerWallet exampleEnv "t0" State.init
        ⟨.str addrScenario, .str "", .undefined⟩).response.status = 200 ∧
      (registerWallet exampleEnv "t0" State.init
        ⟨.str addrScenario, .str "", .undefined⟩).state.customers.map
        (fun e => e.2.name) = [.str "Cliente"] ∧
      (registerWallet exampleEnv "t0" State.init
        ⟨.str "ABCDEF0123456789ABCDEF0123456789ABCDEF01", .undefined,
          .undefined⟩).response.status = 200 ∧
      (registerWallet exampleEnv "t0" State.init
        ⟨.str "ABCDEF0123456789ABCDEF0123456789ABCDEF01", .undefined,
          .undefined⟩).state.customers.map (fun e => (e.1, e.1.length)) =
        [("abcdef0123456789abcdef0123456789abcdef01", 40)] := by
  decide

/-! ## The counter of the quick server -/

namespace Quick

theorem quickReward_sent_or_not (env : Env) (chain : Chain) (count : Nat)
    (walletAddress : JsValue) :
    ((quickReward env chain count walletAddress).response.isSent = true ∧
        (quickReward env chain count walletAddress).response.status = 200 ∧
        (quickReward env chain count walletAddress).transactionCount = count + 1) ∨
      ((quickReward env chain count walletAddress).response.isSent = false ∧
        ((quickReward env chain count walletAddress).response.status = 400 ∨
          (quickReward env chain count walletAddress).response.status = 500) ∧
        (quickReward env chain count walletAddress).transactionCount = count) := by
  unfold quickReward
  split
  · right; exact ⟨rfl, Or.inl rfl, rfl⟩
  · split
    · split
      · right; exact ⟨rfl, Or.inr rfl, rfl⟩
      · split
        · right; exact ⟨rfl, Or.inr rfl, rfl⟩
        · split
          · right; exact ⟨rfl, Or.inr rfl, rfl⟩
          · left; exact ⟨rfl, rfl, rfl⟩
    · right; exact ⟨rfl, Or.inl rfl, rfl⟩

theorem handle_count (env : Env) (count : Nat) (r : Request) :
    (handle env count r).transactionCount =
      count + (if (handle env count r).response.isSent then 1 else 0) := by
  cases r with
  | quickReward chain walletAddress =>
    simp only [handle]
    rcases quickReward_sent_or_not env chain count walletAddress with ⟨h1, _, h3⟩ | ⟨h1, _, h3⟩
    · rw [h3]; simp [h1]
    · rw [h3]; simp [h1]
  | status read =>
    simp only [handle, status]
    split <;> rfl
  | health now => rfl

theorem run_count (env : Env) (requests : List Request) (count : Nat) :
    run env count requests =
      count + ((responses env count requests).filter (fun r => r.isSent)).length := by
  induction requests generalizing count with
  | nil => rfl
  | cons r rest ih =>
    rw [run, responses, ih, handle_count env count r]
    by_cases h : (handle env count r).response.isSent = true
    · simp [h, List.filter_cons]
      omega
    · simp [h, List.filter_cons]

end Quick

/-- C17: in the quick server a quick-reward request for a valid address succeeds
whatever was requested before, there being no registry: when the metadata
reads, the transfer and the confirmation succeed the counter grows by exactly 1
and the transactionNumber of the response is the new count; every other
quick-reward response is a 400 or a 500 and leaves the counter unchanged; the
read endpoints leave it unchanged; so after any sequence of requests from the
start the counter is the number of success responses given. -/
theorem quick_transactionCount (env : Env) :
    (∀ (chain : Quick.Chain) (count : Nat) (w : String) (decimals : Nat)
        (symbol hash : String) (receipt : Receipt),
      w ≠ "" → env.isAddress w = true → chain.metadata = .ok (decimals, symbol) →
      chain.transfer = .ok hash → chain.wait = .ok receipt →
      Quick.quickReward env chain count (.str w) =
        ⟨count + 1,
         ⟨200, .sent ("¡" ++ toString Quick.REWARD_AMOUNT ++ " " ++ symbol ++
              " enviados exitosamente!")
            { recipient := w
              amount := toString Quick.REWARD_AMOUNT ++ " " ++ symbol
              txHash := hash
              blockNumber := receipt.blockNumber
              explorerUrl := "https://sepolia.etherscan.io/tx/" ++ hash
              transactionNumber := count + 1 }⟩,
         [.decimals, .symbol, .transfer w (Quick.REWARD_AMOUNT * 10 ^ decimals),
           .wait hash]⟩) ∧
    (∀ (chain : Quick.Chain) (count : Nat) (walletAddress : JsValue),
      (Quick.quickReward env chain count walletAddress).response.status ≠ 200 →
        ((Quick.quickReward env chain count walletAddress).response.status = 400 ∨
          (Quick.quickReward env chain count walletAddress).response.status = 500) ∧
        (Quick.quickReward env chain count walletAddress).transactionCount = count) ∧
    (∀ (chain : Quick.Chain) (count : Nat) (walletAddress : JsValue),
      (Quick.quickReward env chain count walletAddress).response.status = 200 ↔
        (Quick.quickReward env chain count walletAddress).response.isSent = true) ∧
    (∀ (read : Except String Balances) (count : Nat),
      (Quick.status env read count).transactionCount = count) ∧
    (∀ (now : String) (count : Nat), (Quick.health now count).transactionCount = count) ∧
    (∀ requests : List Quick.Request,
      Quick.run env 0 requests =
        ((Quick.responses env 0 requests).filter (fun r => r.isSent)).length) := by
  refine ⟨?_, ?_, ?_, ?_, ?_, ?_⟩
  · intro chain count w decimals symbol hash receipt hne hvalid hm ht hw
    have htruthy : (JsValue.str w).truthy = true := by
      simp [JsValue.truthy, hne]
    simp [Quick.quickReward, htruthy, ethersIsAddress, hvalid, hm, ht, hw]
  · intro chain count walletAddress hne
    rcases Quick.quickReward_sent_or_not env chain count walletAddress with
      ⟨_, h2, _⟩ | ⟨_, h2, h3⟩
    · exact absurd h2 hne
    · exact ⟨h2, h3⟩
  · intro chain count walletAddress
    rcases Quick.quickReward_sent_or_not env chain count walletAddress with
      ⟨h1, h2, _⟩ | ⟨h1, h2, _⟩
    · simp [h1, h2]
    · rcases h2 with h2 | h2 <;> simp [h1, h2]
  · intro read count
    simp only [Quick.status]
    split <;> rfl
  · intro now count
    rfl
  · intro requests
    rw [Quick.run_count]
    simp

/-- An instance of C17: on a fresh quick server, a failed reward, a status read
and two rewards to an address nobody registered; the counter ends at 2 and the
two successes carry the numbers 1 and 2. -/
theorem quick_transactionCount_witness :
    Quick.run exampleEnv 0
        [.quickReward { Quick.chainOk with transfer := .error "insufficient funds" }
           (.str addrScenario),
         .quickReward Quick.chainOk .undefined,
         .status (.error "network"),
         .quickReward Quick.chainOk (.str addrScenario),
         .quickReward Quick.chainOk (.str addrScenario)] = 2 ∧
      (Quick.responses exampleEnv 0
        [.quickReward { Quick.chainOk with transfer := .error "insufficient funds" }
           (.str addrScenario),
         .quickReward Quick.chainOk .undefined,
         .status (.error "network"),
         .quickReward Quick.chainOk (.str addrScenario),
         .quickReward Quick.chainOk (.str addrScenario)]).map (fun r => r.status) =
        [500, 400, 500, 200, 200] ∧
      Quick.quickReward exampleEnv Quick.chainOk 1 (.str addrScenario) =
        ⟨1 + 1,
         ⟨200, .sent ("¡" ++ toString Quick.REWARD_AMOUNT ++ " " ++ "ARY" ++
              " enviados exitosamente!")
            { recipient := addrScenario
              amount := toString Quick.REWARD_AMOUNT ++ " " ++ "ARY"
              txHash := "0xbb"
              blockNumber := 9
              explorerUrl := "https://sepolia.etherscan.io/tx/" ++ "0xbb"
              transactionNumber := 1 + 1 }⟩,
         [.decimals, .symbol, .transfer addrScenario (Quick.REWARD_AMOUNT * 10 ^ 18),
           .wait "0xbb"]⟩ :=
  ⟨by decide, by decide,
    (quick_transactionCount exampleEnv).1 Quick.chainOk 1 addrScenario 18 "ARY" "0xbb"
      ⟨9, "51000"⟩ (by decide) (by decide) rfl rfl rfl⟩

/-! ## Purchase counts and the log -/

theorem mapHas_eq_true_iff (m : List (String × Customer)) (key : String) :
    mapHas m key = true ↔ key ∈ m.map Prod.fst := by
  simp only [mapHas, List.any_eq_true, List.mem_map, beq_iff_eq]

theorem mapHas_mapModify (m : List (String × Customer)) (key other : String)
    (f : Customer → Customer) : mapHas (mapModify m key f) other = mapHas m other := by
  rw [Bool.eq_iff_iff, mapHas_eq_true_iff, mapHas_eq_true_iff, map_fst_mapModify]

theorem mapHas_mapSet_of_has (m : List (String × Customer)) (key other : String)
    (value : Customer) (h : mapHas m other = true) :
    mapHas (mapSet m key value) other = true := by
  by_cases hk : other = key
  · subst hk
    rw [mapHas_eq_isSome, mapGet_mapSet_self]; rfl
  · rw [mapHas_eq_isSome, mapGet_mapSet_ne _ _ _ _ hk, ← mapHas_eq_isSome]
    exact h

theorem mapGet_of_mem (m : List (String × Customer)) (key : String) (c : Customer)
    (hnodup : (m.map Prod.fst).Nodup) (hmem : (key, c) ∈ m) : mapGet m key = some c := by
  induction m with
  | nil => simp at hmem
  | cons e rest ih =>
    rw [List.map_cons, List.nodup_cons] at hnodup
    rcases List.mem_cons.mp hmem with h | h
    · subst h
      simp [mapGet]
    · have hne : ¬ e.1 = key := by
        intro heq
        apply hnodup.1
        rw [heq]
        exact List.mem_map.mpr ⟨(key, c), h, rfl⟩
      simp [mapGet, hne, ih hnodup.2 h]

theorem totalPurchases_append (m : List (String × Customer)) (key : String) (c : Customer) :
    totalPurchases (m ++ [(key, c)]) = totalPurchases m + c.purchaseCount := by
  simp [totalPurchases]

theorem totalPurchases_mapModify (env : Env) (now : String) (m : List (String × Customer))
    (key : String) (h : mapHas m key = true) :
    totalPurchases (mapModify m key (recordPurchase env now)) = totalPurchases m + 1 := by
  induction m with
  | nil => simp [mapHas] at h
  | cons e rest ih =>
    by_cases hk : (e.1 == key) = true
    · simp [mapModify, hk, totalPurchases, recordPurchase]
      omega
    · have hrest : mapHas rest key = true := by
        simpa [mapHas, List.any_cons, hk] using h
      have ih2 := ih hrest
      simp only [totalPurchases] at ih2
      simp [mapModify, hk, totalPurchases, ih2]
      omega

theorem consistent_init : Consistent State.init := by
  refine ⟨?_, ?_, ?_, ?_⟩
  · simp [State.init]
  · intro key c h
    simp [State.init, mapGet] at h
  · intro tx h
    simp [State.init] at h
  · rfl

theorem consistent_register (s : State) (key : String) (record : Customer)
    (h : Consistent s) (hfresh : mapHas s.customers key = false)
    (hzero : record.purchaseCount = 0) :
    Consistent { customers := mapSet s.customers key record, transactions := s.transactions } := by
  obtain ⟨h1, h2, h3, h4⟩ := h
  have hnot : key ∉ s.customers.map Prod.fst := by
    intro hmem
    rw [← mapHas_eq_true_iff, hfresh] at hmem
    exact Bool.false_ne_true hmem
  refine ⟨?_, ?_, ?_, ?_⟩
  · show (List.map Prod.fst (mapSet s.customers key record)).Nodup
    rw [mapSet_of_not_has _ _ _ hfresh, List.map_append, List.nodup_append]
    refine ⟨h1, by simp, ?_⟩
    intro a ha hb
    simp only [List.map_cons, List.map_nil, List.mem_singleton] at hb
    subst hb
    exact hnot ha
  · intro other c hget
    show c.purchaseCount = (ownedBy other s.transactions).length
    by_cases hk : other = key
    · subst hk
      have hget2 : mapGet (mapSet s.customers other record) other = some c := hget
      rw [mapGet_mapSet_self] at hget2
      have hc : record = c := Option.some.inj hget2
      rw [← hc, hzero]
      have hempty : ownedBy other s.transactions = [] := by
        rw [ownedBy, List.filter_eq_nil_iff]
        intro tx htx hkey
        have hhas := h3 tx htx
        have hk2 : toLowerCase tx.recipient = other := by simpa using hkey
        rw [hk2, hfresh] at hhas
        exact Bool.false_ne_true hhas
      rw [hempty]
      rfl
    · have hget2 : mapGet (mapSet s.customers key record) other = some c := hget
      rw [mapGet_mapSet_ne _ _ _ _ hk] at hget2
      exact h2 other c hget2
  · intro tx htx
    exact mapHas_mapSet_of_has _ _ _ _ (h3 tx htx)
  · show totalPurchases (mapSet s.customers key record) = s.transactions.length
    rw [mapSet_of_not_has _ _ _ hfresh, totalPurchases_append, hzero, h4]
    rfl

theorem consistent_reward (env : Env) (now : String) (s : State) (key : String)
    (tx : Transaction) (h : Consistent s) (hreg : mapHas s.customers key = true)
    (htx : toLowerCase tx.recipient = key) :
    Consistent
      { customers := mapModify s.customers key (recordPurchase env now)
        transactions := s.transactions ++ [tx] } := by
  obtain ⟨h1, h2, h3, h4⟩ := h
  refine ⟨?_, ?_, ?_, ?_⟩
  · show (List.map Prod.fst (mapModify s.customers key (recordPurchase env now))).Nodup
    rw [map_fst_mapModify]
    exact h1
  · intro other c hget
    have hget2 : mapGet (mapModify s.customers key (recordPurchase env now)) other = some c :=
      hget
    show c.purchaseCount = (ownedBy other (s.transactions ++ [tx])).length
    by_cases hk : other = key
    · subst hk
      rw [mapGet_mapModify_self] at hget2
      cases hold : mapGet s.customers other with
      | none => simp [hold] at hget2
      | some c0 =>
        rw [hold] at hget2
        have hc : recordPurchase env now c0 = c := Option.some.inj hget2
        rw [← hc]
        have hcount := h2 other c0 hold
        simp [ownedBy, List.filter_append, htx, recordPurchase] at hcount ⊢
        exact hcount
    · rw [mapGet_mapModify_ne _ _ _ _ hk] at hget2
      have hcount := h2 other c hget2
      have hne : ¬ toLowerCase tx.recipient = other := by
        rw [htx]
        exact fun heq => hk heq.symm
      simp [ownedBy, List.filter_append, hne] at hcount ⊢
      exact hcount
  · intro t ht
    show mapHas (mapModify s.customers key (recordPurchase env now)) (toLowerCase t.recipient) =
      true
    rw [mapHas_mapModify]
    rcases List.mem_append.mp ht with hold | hnew
    · exact h3 t hold
    · have ht2 : t = tx := by simpa using hnew
      rw [ht2, htx]
      exact hreg
  · show totalPurchases (mapModify s.customers key (recordPurchase env now)) =
      (s.transactions ++ [tx]).length
    rw [totalPurchases_mapModify env now _ _ hreg, h4]
    simp

/-- What register-wallet does to the state: nothing, or one record with no
purchases stored under a key that was not there. -/
theorem registerWallet_state_cases (env : Env) (now : String) (s : State)
    (body : RegisterBody) :
    (registerWallet env now s body).state = s ∨
      ∃ (key : String) (record : Customer),
        mapHas s.customers key = false ∧ record.purchaseCount = 0 ∧
          (registerWallet env now s body).state =
            { customers := mapSet s.customers key record, transactions := s.transactions } := by
  obtain ⟨wa, name, email⟩ := body
  cases wa <;> try (left; rfl)
  rename_i w
  by_cases hv : env.isAddress w = true
  · by_cases hh : mapHas s.customers (toLowerCase w) = true
    · left
      simp [registerWallet, hv, hh]
    · have hf : mapHas s.customers (toLowerCase w) = false := by simpa using hh
      right
      refine ⟨toLowerCase w,
        { name := jsOr name (.str "Cliente")
          email := jsOr email (.str "")
          purchaseCount := 0
          totalRewards := 0
          registeredAt := now
          lastPurchase := none }, hf, rfl, ?_⟩
      simp [registerWallet, hv, hf]
  · have hv2 : env.isAddress w = false := by simpa using hv
    left
    simp [registerWallet, hv2]

/-- What send-reward does to the state: nothing, or the purchase recorded under
a registered key and one entry appended whose recipient lower-cases to it. -/
theorem sendReward_state_cases (env : Env) (nowPurchase nowLog : String) (chain : Chain)
    (s : State) (body : RewardBody) :
    (sendReward env nowPurchase nowLog chain s body).state = s ∨
      ∃ (key : String) (tx : Transaction),
        mapHas s.customers key = true ∧ toLowerCase tx.recipient = key ∧
          (sendReward env nowPurchase nowLog chain s body).state =
            { customers := mapModify s.customers key (recordPurchase env nowPurchase)
              transactions := s.transactions ++ [tx] } := by
  obtain ⟨wa, purchaseId, purchaseAmount⟩ := body
  cases wa <;> try (left; rfl)
  rename_i w
  by_cases hv : env.isAddress w = true
  · cases hg : mapGet s.customers (toLowerCase w) with
    | none =>
      have hf : mapHas s.customers (toLowerCase w) = false := by
        rw [mapHas_eq_isSome, hg]; rfl
      left
      simp [sendReward, hv, hf]
    | some c =>
      have hh : mapHas s.customers (toLowerCase w) = true := by
        rw [mapHas_eq_isSome, hg]; rfl
      cases hd : chain.decimals with
      | error m => left; simp [sendReward, hv, hh, hd]
      | ok decimals =>
        cases hs : chain.symbol with
        | error m => left; simp [sendReward, hv, hh, hd, hs]
        | ok symbol =>
          cases hu : chain.parseUnits decimals with
          | error m => left; simp [sendReward, hv, hh, hd, hs, hu]
          | ok wei =>
            cases ht : chain.transfer with
            | error m => left; simp [sendReward, hv, hh, hd, hs, hu, ht]
            | ok hash =>
              cases hw : chain.wait with
              | error m => left; simp [sendReward, hv, hh, hd, hs, hu, ht, hw]
              | ok receipt =>
                right
                rw [sendReward_confirmed env s nowPurchase nowLog chain w purchaseId
                  purchaseAmount c decimals symbol hash wei receipt hv hg hd hs hu ht hw]
                exact ⟨toLowerCase w, _, hh, rfl, rfl⟩
  · have hv2 : env.isAddress w = false := by simpa using hv
    left
    simp [sendReward, hv2]

theorem registerWallet_consistent (env : Env) (now : String) (s : State) (body : RegisterBody)
    (h : Consistent s) : Consistent (registerWallet env now s body).state := by
  rcases registerWallet_state_cases env now s body with h1 | ⟨key, record, hf, hz, h1⟩
  · rw [h1]; exact h
  · rw [h1]; exact consistent_register s key record h hf hz

theorem sendReward_consistent (env : Env) (nowPurchase nowLog : String) (chain : Chain)
    (s : State) (body : RewardBody) (h : Consistent s) :
    Consistent (sendReward env nowPurchase nowLog chain s body).state := by
  rcases sendReward_state_cases env nowPurchase nowLog chain s body with
    h1 | ⟨key, tx, hreg, htx, h1⟩
  · rw [h1]; exact h
  · rw [h1]; exact consistent_reward env nowPurchase s key tx h hreg htx

theorem handle_consistent (env : Env) (s : State) (r : Request) (h : Consistent s) :
    Consistent (handle env s r).state := by
  cases r with
  | registerWallet now body => exact registerWallet_consistent env now s body h
  | sendReward nowPurchase nowLog chain body =>
    exact sendReward_consistent env nowPurchase nowLog chain s body h
  | businessBalance read =>
    simp only [handle, businessBalance]
    split <;> exact h
  | customer param =>
    simp only [handle, getCustomer]
    split <;> exact h
  | transactions parsed => exact h
  | health now => exact h

theorem run_consistent (env : Env) (requests : List Request) (s : State)
    (h : Consistent s) : Consistent (run env s requests) := by
  induction requests generalizing s with
  | nil => exact h
  | cons r rest ih => exact ih _ (handle_consistent env s r h)

/-- C18: in every state reachable from the empty initial state, the
purchaseCount of each customer is the number of log entries whose recipient
lower-cases to the key of that customer, the sum of purchaseCount over all
customers is the length of the log, and the recipient of every log entry
lower-cases to a registered key. -/
theorem reachable_purchaseCounts (env : Env) (s : State) (h : Reachable env s) :
    (∀ e ∈ s.customers, e.2.purchaseCount = (ownedBy e.1 s.transactions).length) ∧
      totalPurchases s.customers = s.transactions.length ∧
      (∀ tx ∈ s.transactions, mapHas s.customers (toLowerCase tx.recipient) = true) := by
  obtain ⟨requests, rfl⟩ := h
  obtain ⟨h1, h2, h3, h4⟩ := run_consistent env requests State.init consistent_init
  refine ⟨?_, h4, h3⟩
  intro e he
  exact h2 e.1 e.2 (mapGet_of_mem _ _ _ h1 he)

/-- An instance of C18: two customers, one of them rewarded once. -/
theorem reachable_purchaseCounts_witness :
    (∀ e ∈ stateTwoCustomers.customers,
        e.2.purchaseCount = (ownedBy e.1 stateTwoCustomers.transactions).length) ∧
      totalPurchases stateTwoCustomers.customers = stateTwoCustomers.transactions.length ∧
      (∀ tx ∈ stateTwoCustomers.transactions,
        mapHas stateTwoCustomers.customers (toLowerCase tx.recipient) = true) :=
  reachable_purchaseCounts exampleEnv stateTwoCustomers
    ⟨[.registerWallet "t0" ⟨.str addrScenario, .undefined, .undefined⟩,
      .sendReward "t1" "t2" chainOk ⟨.str addrScenario, .num 42, .undefined⟩,
      .registerWallet "t3"
        ⟨.str "0x1111111111111111111111111111111111111111", .str "Eva", .undefined⟩], rfl⟩

end Rewards
